import Mathlib

/-!
Verification development for the PXP-201 browser console repository.

The repository is a React UI ("pxp-201-ui") that calls an external SDK
("@privacyx/pxp201") for all cryptography.  We shallow-embed the repository's
own logic in Lean:

* `src/lib/format.js` — the hex and base64url codecs (`u8ToHex`, `hexToU8`,
  `u8ToB64url`, `b64urlToU8`), embedded byte-for-byte including the JS
  `parseInt(·, 16)` semantics and the browser `atob`/`btoa` (forgiving
  base64) semantics they rely on.
* `src/App.jsx` — the tab panels' UI actions: `parseWk1`, the Decrypt tab's
  `run` (with its SDK-call trace and run-identifier staleness guard), the
  WK1 tab's `fillFromBundle` and `doUnwrap`, the Encrypt tab's envelope and
  bundle assembly, and the Vectors tab's `vectorToBundle` and `runGenerate`.

JS strings are modelled as Lean `String` over their code units (all data in
scope is ASCII).  JS numbers appearing in the embedded code paths are
integers, modelled as `Int`/`Nat`.  `Uint8Array` is `List Nat` with entries
below 256.  JSON values (the parsed "bundle"/"vector" documents) are the
inductive `JVal`; `undefined` is `Option.none` one level up.  External SDK
calls are oracles (structures of functions) and fallible code returns
`Except`.
-/

namespace Pxp201

/-! ## JS integer-parsing and coercion helpers (used by `src/lib/format.js`) -/

/-- Value of a hexadecimal digit character, as accepted by JS `parseInt`
with radix 16 (`0-9`, `a-f`, `A-F`). -/
def hexDigitVal? (c : Char) : Option Nat :=
  if '0' ≤ c ∧ c ≤ '9' then some (c.toNat - '0'.toNat)
  else if 'a' ≤ c ∧ c ≤ 'f' then some (c.toNat - 'a'.toNat + 10)
  else if 'A' ≤ c ∧ c ≤ 'F' then some (c.toNat - 'A'.toNat + 10)
  else none

/-- ASCII whitespace skipped by JS `parseInt` (the ECMAScript WhiteSpace and
LineTerminator productions, restricted to the ASCII range relevant here). -/
def jsWs (c : Char) : Bool :=
  c = ' ' ∨ c = '\t' ∨ c = '\n' ∨ c = '\r' ∨ c = '\x0b' ∨ c = '\x0c'

/-- JS `parseInt(s, 16)`: skip leading whitespace, read an optional sign,
strip an optional `0x`/`0X`, then take the longest run of hex digits.
`none` models the `NaN` result (no digits). -/
def parseIntHex (s : String) : Option Int :=
  let cs := s.data.dropWhile jsWs
  let (sign, cs1) : Int × List Char :=
    match cs with
    | '+' :: t => (1, t)
    | '-' :: t => (-1, t)
    | _ => (1, cs)
  let cs2 :=
    match cs1 with
    | '0' :: c :: t => if c = 'x' ∨ c = 'X' then t else '0' :: c :: t
    | l => l
  let ds := cs2.takeWhile (fun c => (hexDigitVal? c).isSome)
  if ds.isEmpty then none
  else some (sign * Int.ofNat (ds.foldl (fun a c => a * 16 + (hexDigitVal? c).getD 0) 0))

/-- The JS `ToUint8` coercion applied when storing into a `Uint8Array`:
`NaN` becomes 0, integers are taken modulo 256. -/
def toUint8 (i : Option Int) : Nat :=
  match i with
  | none => 0
  | some i => (i % 256).toNat

/-! ## `src/lib/format.js`: hex codec -/

/-- The two hex characters of one byte: JS `b.toString(16).padStart(2, "0")`
(`Nat.toDigits 16` produces the same lowercase digits as JS `toString(16)`
for naturals). -/
def byteHexChars (b : Nat) : List Char :=
  let ds := Nat.toDigits 16 b
  List.replicate (2 - ds.length) '0' ++ ds

/-- Character list of the hex body: the JS
`Array.from(u8).map((b) => b.toString(16).padStart(2, "0")).join("")`. -/
def hexBody : List Nat → List Char
  | [] => []
  | b :: t => byteHexChars b ++ hexBody t

/-- `u8ToHex` from `src/lib/format.js`: `"0x"` followed by two lowercase hex
digits per byte. -/
def u8ToHex (u8 : List Nat) : String :=
  ⟨'0' :: 'x' :: hexBody u8⟩

/-- Split a character list into consecutive pairs, dropping a trailing
odd character (the JS loop reads `h.slice(i * 2, i * 2 + 2)`; `hexToU8`
only reaches it on even lengths). -/
def chunk2 : List Char → List (List Char)
  | a :: b :: t => [a, b] :: chunk2 t
  | _ => []

/-- The JS `hex.startsWith("0x") ? hex.slice(2) : hex`, on code units. -/
def strip0x : List Char → List Char
  | '0' :: 'x' :: t => t
  | l => l

/-- `hexToU8` from `src/lib/format.js`: strip an optional `0x`, reject odd
lengths, then coerce `parseInt(pair, 16)` of each 2-character pair into a
byte (`Uint8Array` store semantics). -/
def hexToU8 (hex : String) : Except String (List Nat) :=
  let h : List Char := strip0x hex.data
  if h.length % 2 ≠ 0 then .error "Invalid hex length"
  else .ok ((chunk2 h).map fun p => toUint8 (parseIntHex ⟨p⟩))

/-! ## Browser `btoa` / `atob` (forgiving base64), as used by `format.js` -/

/-- The standard base64 alphabet, in index order. -/
def b64Alphabet : List Char :=
  "ABCDEFGHIJKLMNOPQRSTUVWXYZabcdefghijklmnopqrstuvwxyz0123456789+/".data

/-- Character for a sextet value. -/
def b64Char (n : Nat) : Char :=
  b64Alphabet.getD n 'A'

/-- Index of a base64 alphabet character (`none` for other characters,
including `'='`). -/
def b64CharVal (c : Char) : Option Nat :=
  b64Alphabet.findIdx? (· = c)

/-- The non-padding characters `btoa` emits for a byte sequence: four sextet
characters per full 3-byte group, three for a trailing 2-byte group, two for
a trailing single byte. -/
def sextChars : List Nat → List Char
  | a :: b :: c :: t =>
      b64Char (a / 4) :: b64Char (a % 4 * 16 + b / 16) ::
      b64Char (b % 16 * 4 + c / 64) :: b64Char (c % 64) :: sextChars t
  | [a, b] =>
      [b64Char (a / 4), b64Char (a % 4 * 16 + b / 16), b64Char (b % 16 * 4)]
  | [a] =>
      [b64Char (a / 4), b64Char (a % 4 * 16)]
  | [] => []

/-- Number of `'='` padding characters `btoa` appends. -/
def b64PadLen : List Nat → Nat
  | _ :: _ :: _ :: t => b64PadLen t
  | [_, _] => 1
  | [_] => 2
  | [] => 0

/-- `btoa` on the binary string of a byte sequence (every byte of a
`Uint8Array` is below 256, so `btoa` never throws here). -/
def btoaChars (u8 : List Nat) : List Char :=
  sextChars u8 ++ List.replicate (b64PadLen u8) '='

/-- ASCII whitespace stripped by forgiving-base64 (`atob`). -/
def asciiWs (c : Char) : Bool :=
  c = ' ' ∨ c = '\t' ∨ c = '\n' ∨ c = '\x0c' ∨ c = '\r'

/-- Forgiving-base64: when the length is a multiple of 4, up to two trailing
`'='` are removed before decoding. -/
def stripUpTo2Eq (cs : List Char) : List Char :=
  let r := cs.reverse
  if r.take 2 = ['=', '='] then (r.drop 2).reverse
  else if r.take 1 = ['='] then (r.drop 1).reverse
  else cs

/-- Sextet values of the data characters; errors on any character outside
the base64 alphabet (this is how `atob` raises `InvalidCharacterError`). -/
def sextetVals : List Char → Except String (List Nat)
  | [] => .ok []
  | c :: t =>
      match b64CharVal c with
      | none => .error "InvalidCharacterError"
      | some v => (sextetVals t).map (v :: ·)

/-- Bytes from sextet values: three per 4-sextet group; a trailing group of
three sextets yields two bytes, of two sextets one byte (leftover bits are
discarded, as forgiving-base64 does). -/
def bytesOfSextets : List Nat → List Nat
  | s1 :: s2 :: s3 :: s4 :: t =>
      (s1 * 4 + s2 / 16) :: (s2 % 16 * 16 + s3 / 4) :: (s3 % 4 * 64 + s4) ::
        bytesOfSextets t
  | [s1, s2, s3] => [s1 * 4 + s2 / 16, s2 % 16 * 16 + s3 / 4]
  | [s1, s2] => [s1 * 4 + s2 / 16]
  | _ => []

/-- Browser `atob` (the WHATWG forgiving-base64 decode): strip ASCII
whitespace, strip up to two trailing `'='` when the length is a multiple of
4, reject a remaining length of 1 mod 4 and any non-alphabet character,
then regroup sextets into bytes. -/
def atobBytes (cs : List Char) : Except String (List Nat) :=
  let cs1 := cs.filter (fun c => !asciiWs c)
  let cs2 := if cs1.length % 4 = 0 then stripUpTo2Eq cs1 else cs1
  if cs2.length % 4 = 1 then .error "InvalidCharacterError"
  else (sextetVals cs2).map bytesOfSextets

/-! ## `src/lib/format.js`: base64url codec -/

/-- The character map of `u8ToB64url`: plus to minus, slash to underscore
(the two global `replace` calls). -/
def b64urlFwd (c : Char) : Char :=
  if c = '+' then '-' else if c = '/' then '_' else c

/-- The character map of `b64urlToU8`: minus to plus, underscore to slash
(the two global `replace` calls). -/
def b64urlBack (c : Char) : Char :=
  if c = '-' then '+' else if c = '_' then '/' else c

/-- The trailing-equals strip of `u8ToB64url`: remove all trailing `'='`
(the anchored global `replace` with the empty string). -/
def stripTrailingEq (cs : List Char) : List Char :=
  (cs.reverse.dropWhile (· = '=')).reverse

/-- `u8ToB64url` from `src/lib/format.js`: `btoa` of the byte string, then
`+`→`-`, `/`→`_`, and trailing `=` removed. -/
def u8ToB64url (u8 : List Nat) : String :=
  ⟨stripTrailingEq ((btoaChars u8).map b64urlFwd)⟩

/-- `b64urlToU8` from `src/lib/format.js`: map `-`→`+`, `_`→`/`, pad with
`'='` up to `Math.ceil(s.length / 4) * 4` (`padEnd`), then `atob`. -/
def b64urlToU8 (s : String) : Except String (List Nat) :=
  let b64 : List Char :=
    let l := s.data.map b64urlBack
    l ++ List.replicate ((s.length + 3) / 4 * 4 - l.length) '='
  atobBytes b64

/-! ## JSON values and JS primitives for the App panels -/

/-- A parsed JSON value (`JSON.parse` output).  `undefined` is represented
as `Option.none` one level up, never inside a document. -/
inductive JVal where
  | jnull
  | jbool (b : Bool)
  | jnum (n : Int)
  | jstr (s : String)
  | jarr (elts : List JVal)
  | jobj (fields : List (String × JVal))

/-- JS truthiness of a JSON value. -/
def JVal.truthy : JVal → Bool
  | .jnull => false
  | .jbool b => b
  | .jnum n => n != 0
  | .jstr s => s != ""
  | .jarr _ => true
  | .jobj _ => true

/-- JS truthiness of a possibly-undefined value. -/
def jsTruthy : Option JVal → Bool
  | none => false
  | some v => v.truthy

mutual
/-- Comma-joined rendering of a JS array (the recursive part of `String(v)`
for arrays). -/
def jsArrToString : List JVal → String
  | [] => ""
  | [x] => jsArrElem x
  | x :: y :: t => jsArrElem x ++ "," ++ jsArrToString (y :: t)
termination_by l => (sizeOf l, 0)

/-- Array-element rendering: null renders empty, other values as their JS
string form (nested arrays recursively). -/
def jsArrElem : JVal → String
  | .jnull => ""
  | .jbool b => cond b "true" "false"
  | .jnum n => toString n
  | .jstr s => s
  | .jobj _ => "[object Object]"
  | .jarr l => jsArrToString l
termination_by v => (sizeOf v, 1)
end

/-- JS `String(v)` of a JSON value: objects stringify to `[object Object]`,
arrays to their comma-joined elements. -/
def jsToString : JVal → String
  | .jnull => "null"
  | .jbool b => cond b "true" "false"
  | .jnum n => toString n
  | .jstr s => s
  | .jobj _ => "[object Object]"
  | .jarr l => jsArrToString l

/-- Decimal reading of an all-digit string (used for array index keys). -/
def strToNat? (s : String) : Option Nat :=
  if s.data ≠ [] ∧ s.data.all (fun c => c.isDigit) then
    some (s.data.foldl (fun a c => a * 10 + (c.toNat - '0'.toNat)) 0)
  else none

/-- JS property access `v[k]` on a parsed JSON value: object fields (later
duplicates win, as in `JSON.parse`), array elements via the canonical
decimal string of the index; `undefined` otherwise.  Built-in properties
such as `length` are outside the model and never exercised by the claims. -/
def JVal.get? : JVal → String → Option JVal
  | .jobj fs, k => (fs.reverse.find? (fun p => p.1 = k)).map (·.2)
  | .jarr l, k =>
      match strToNat? k with
      | some n => if toString n = k then l[n]? else none
      | none => none
  | _, _ => none

/-- Optional chaining `v?.k` through a possibly-undefined value. -/
def optGet (v : Option JVal) (k : String) : Option JVal :=
  v.bind (JVal.get? · k)

/-- JS logical-or on possibly-undefined values: the first operand when
truthy, otherwise the second. -/
def jsOr (a b : Option JVal) : Option JVal :=
  if jsTruthy a then a else b

/-- JS logical-or on two strings (used with component string state). -/
def jsOrStr (a b : String) : String :=
  if a ≠ "" then a else b

/-- JS `typeof v === "object"` on a possibly-undefined value (`null` counts
as an object; callers exclude it separately by truthiness). -/
def isObjLike : Option JVal → Bool
  | some (.jobj _) => true
  | some (.jarr _) => true
  | some .jnull => true
  | _ => false

/-- JS strict equality as used by the recipient resolvers: structural on
primitives and `undefined`.  Distinct object or array nodes out of
`JSON.parse` are distinct references, hence `false`; the one same-reference
comparison reachable in the panels (`recips[0].rid` against itself when the
rid is a non-primitive) selects `recips[0]`, which is also the fallback the
model takes, so outcomes agree. -/
def jsStrictEq : Option JVal → Option JVal → Bool
  | none, none => true
  | some .jnull, some .jnull => true
  | some (.jbool a), some (.jbool b) => a == b
  | some (.jnum a), some (.jnum b) => a == b
  | some (.jstr a), some (.jstr b) => a == b
  | _, _ => false

/-- JS property-key coercion of a possibly-undefined value (the `ToString`
of the computed key, `undefined` giving the key `"undefined"`). -/
def jsPropKey : Option JVal → String
  | none => "undefined"
  | some v => jsToString v

/-- Object literal some of whose values may be `undefined`: JS keeps such a
key with value `undefined`, which is observationally the absent key for the
property accesses in scope, so the model drops it. -/
def mkObj (fields : List (String × Option JVal)) : JVal :=
  .jobj (fields.filterMap (fun p => p.2.map (fun v => (p.1, v))))

/-- A thrown JS failure: an `Error` object carrying its `message`, or an
arbitrary thrown/rejected value. -/
inductive JsErr where
  | error (message : String)
  | val (v : JVal)

/-- The panels' catch-all conversion `String(e?.message || e)`: a truthy
`message` property is used; otherwise the value itself is stringified
(`String(new Error(""))` is `"Error"`). -/
def errMessage : JsErr → String
  | .error m => if m ≠ "" then m else "Error"
  | .val v =>
      match v.get? "message" with
      | some mv => if mv.truthy then jsToString mv else jsToString v
      | none => jsToString v

/-- The `aadText || undefined` argument the panels pass to the SDK. -/
def aadOrUndef (aadText : String) : Option String :=
  if aadText = "" then none else some aadText

/-! ## The Decrypt tab (`DecryptPanel`, App.jsx lines 435–683) -/

/-- One recorded call into the external SDK. -/
inductive SdkCall where
  | validateEnvelope (env : JVal)
  | unwrapDEK (wrappedKey : JVal) (privKeyHex : JVal) (aadText : Option String)
  | decryptText (env : JVal) (dek : JVal) (ciphertextB64url : JVal)
      (nonceB64url : JVal) (aadText : Option String)

/-- Oracle for the external SDK as observed by the Decrypt and Vectors
bundle runs: each call either returns a value or rejects with a thrown
value. -/
structure Sdk where
  validateEnvelope : JVal → Except JsErr Unit
  unwrapDEK : JVal → JVal → Option String → Except JsErr JVal
  decryptText : JVal → JVal → JVal → JVal → Option String → Except JsErr JVal

/-- The success payload of the Decrypt tab run: the decrypted plaintext and
the details object (the source stores its pretty-printed JSON; the claims
never inspect that string, so the structured object is kept). -/
structure DecSuccess where
  plaintext : JVal
  info : JVal

/-- The Decrypt tab `out` state.  `plaintext` and `info` are JS values
(`""` initially); `info` is `none` when cleared. -/
structure DecOut where
  ok : Bool
  plaintext : JVal
  info : Option JVal
  error : String

/-- The reset value `{ ok: false, plaintext: "", info: "", error: "" }`. -/
def decOut0 : DecOut :=
  { ok := false, plaintext := .jstr "", info := none, error := "" }

/-- The `recips.find((x) => x.rid === ridToUse)` loop: reading `.rid` off a
`null` element throws a `TypeError` (message text engine-specific). -/
def findRecipEntry (ridToUse : Option JVal) : List JVal → Except JsErr (Option JVal)
  | [] => .ok none
  | x :: t =>
      match x with
      | .jnull => .error (.error "Cannot read properties of null (reading rid)")
      | _ =>
          if jsStrictEq (x.get? "rid") ridToUse then .ok (some x)
          else findRecipEntry ridToUse t

/-- The effective AAD of the run (line 458): `bundle.aadText` when it is a
non-empty string, else `aadOverride || ""`. -/
def decryptAadText (bundle : JVal) (aadOverride : String) : String :=
  match bundle.get? "aadText" with
  | some (.jstr s) => if s.length > 0 then s else jsOrStr aadOverride ""
  | _ => jsOrStr aadOverride ""

/-- The recipient private key resolution (lines 480–484):
`(privMap && typeof privMap === "object" && entry?.rid ? privMap[entry.rid] : "")
|| bundle?.recipient?.recipientPrivHex || ""`. -/
def decryptPrivHex (bundle entry : JVal) : Option JVal :=
  let privMap := bundle.get? "recipientPrivHexByRid"
  let fromMap : Option JVal :=
    if jsTruthy privMap ∧ isObjLike privMap ∧ jsTruthy (entry.get? "rid") then
      optGet privMap (jsPropKey (entry.get? "rid"))
    else some (.jstr "")
  jsOr (jsOr fromMap (optGet (bundle.get? "recipient") "recipientPrivHex"))
    (some (.jstr ""))

/-- The Decrypt tab `run` body (lines 448–533) for one invocation executed
to completion: takes the outcome of `JSON.parse(bundleInput || "{}")`, the
`aadOverride` and `selectedRid` state and the SDK oracle; returns the
thrown/rejected failure or the success value, together with the trace of
SDK calls made.  The run-identifier staleness guard is modelled separately
by `runIdStep`. -/
def decryptRunCore (parsed : Except String JVal) (aadOverride selectedRid : String)
    (sdk : Sdk) : Except JsErr DecSuccess × List SdkCall :=
  match parsed with
  | .error m => (.error (.error m), [])
  | .ok .jnull =>
      -- `const { raw, envelope } = bundle` throws a TypeError on null
      (.error (.error "Cannot destructure property raw of bundle as it is null"), [])
  | .ok bundle =>
    let raw := bundle.get? "raw"
    let envelope := bundle.get? "envelope"
    let aadText := decryptAadText bundle aadOverride
    if ¬ (jsTruthy (optGet raw "ciphertextB64url") ∧ jsTruthy (optGet raw "nonceB64url")) then
      (.error (.error "bundle.raw missing ciphertextB64url/nonceB64url"), [])
    else if ¬ jsTruthy envelope then
      (.error (.error "bundle.envelope missing"), [])
    else
      let env := envelope.getD .jnull
      let tr0 := [SdkCall.validateEnvelope env]
      match sdk.validateEnvelope env with
      | .error e => (.error e, tr0)
      | .ok _ =>
        match (jsOr (optGet (optGet envelope "access") "recipients")
            (some (.jarr []))).getD (.jarr []) with
        | .jarr recips =>
          if recips.isEmpty then
            (.error (.error "envelope.access.recipients missing/empty"), tr0)
          else
            let ridToUse : Option JVal :=
              if selectedRid ≠ "" then some (.jstr selectedRid)
              else optGet recips.head? "rid"
            if ¬ jsTruthy ridToUse then
              (.error (.error "No recipient rid available"), tr0)
            else
              match findRecipEntry ridToUse recips with
              | .error e => (.error e, tr0)
              | .ok found =>
                let entry : JVal := found.getD (recips.headD .jnull)
                if ¬ jsTruthy (entry.get? "wrappedKey") then
                  (.error (.error "No wrappedKey for selected recipient"), tr0)
                else
                  let privHex := decryptPrivHex bundle entry
                  if ¬ jsTruthy privHex then
                    (.error (.error "No recipient privkey in bundle (expected recipientPrivHexByRid[rid] or recipient.recipientPrivHex). If you imported a vector, export it with include demo privkey enabled."), tr0)
                  else
                    let wk := (entry.get? "wrappedKey").getD .jnull
                    let pv := privHex.getD .jnull
                    let aadO := aadOrUndef aadText
                    let tr1 := tr0 ++ [SdkCall.unwrapDEK wk pv aadO]
                    match sdk.unwrapDEK wk pv aadO with
                    | .error e => (.error e, tr1)
                    | .ok dek =>
                      let ct := (optGet raw "ciphertextB64url").getD .jnull
                      let nn := (optGet raw "nonceB64url").getD .jnull
                      let tr2 := tr1 ++ [SdkCall.decryptText env dek ct nn aadO]
                      match sdk.decryptText env dek ct nn aadO with
                      | .error e => (.error e, tr2)
                      | .ok pt =>
                        (.ok { plaintext := pt,
                               info := mkObj
                                 [("ciphertextHash", env.get? "ciphertextHash"),
                                  ("aadHash", env.get? "aadHash"),
                                  ("rid", entry.get? "rid"),
                                  ("createdAt", env.get? "createdAt")] }, tr2)
        | _ => (.error (.error "envelope.access.recipients missing/empty"), tr0)

/-- The condition rejected by `if (!Array.isArray(recips) || recips.length
=== 0)` on the resolved `envelope?.access?.recipients || []` value: the
bundle lacks a usable recipients array (field missing or falsy, not an
array, or an empty array). -/
def recipientsUnusable (bundle : JVal) : Bool :=
  match (jsOr (optGet (optGet (bundle.get? "envelope") "access") "recipients")
      (some (.jarr []))).getD (.jarr []) with
  | .jarr recips => recips.isEmpty
  | _ => true

/-- The complete Decrypt tab run action as it lands in the `out` state:
every failure is caught at the action boundary and converted via
`String(e?.message || e)`; nothing escapes. -/
def decryptRunState (parsed : Except String JVal) (aadOverride selectedRid : String)
    (sdk : Sdk) : DecOut × List SdkCall :=
  match decryptRunCore parsed aadOverride selectedRid sdk with
  | (.ok s, tr) =>
      ({ ok := true, plaintext := s.plaintext, info := some s.info, error := "" }, tr)
  | (.error e, tr) =>
      ({ ok := false, plaintext := .jstr "", info := none, error := errMessage e }, tr)

/-! ## The Decrypt tab staleness guard (`runIdRef`, lines 446–533) -/

/-- State of the staleness protocol: `runIdRef.current`, the `out` state,
and the history of identifiers handed out to invocations. -/
structure RunIdSt where
  counter : Nat
  out : DecOut
  started : List Nat

/-- Events at the `await` granularity of `run`: an invocation starting
(`const runId = ++runIdRef.current` plus the `setOut` reset), or a run's
asynchronous tail completing with result `r`, applied only when its
identifier still equals the counter. -/
inductive RunEv where
  | start
  | complete (id : Nat) (r : Except JsErr DecSuccess)

/-- One step of the staleness protocol: `run` checks
`runId !== runIdRef.current` before every `setOut`, in the success path and
in the catch alike, and returns without touching state when stale. -/
def runIdStep (s : RunIdSt) (e : RunEv) : RunIdSt :=
  match e with
  | .start =>
      { counter := s.counter + 1, out := decOut0, started := s.started ++ [s.counter + 1] }
  | .complete id r =>
      if id = s.counter then
        { s with out :=
            match r with
            | .ok v => { ok := true, plaintext := v.plaintext, info := some v.info, error := "" }
            | .error e =>
                { ok := false, plaintext := .jstr "", info := none, error := errMessage e } }
      else s

/-! ## `parseWk1` and the WK1 tab (`WK1Panel`, App.jsx lines 92–102, 686–931) -/

/-- `parseWk1` (lines 93–102): reject non-strings, reject strings without
the `pxp201:wk1:` prefix, otherwise rebuild standard base64 from the
base64url body (the char map plus the sliced `"==="` padding), `atob` it,
and `JSON.parse` the decoded text.  `JSON.parse` of arbitrary text is
outside the claims and is the `jsonParse` oracle on the decoded bytes. -/
def parseWk1 (jsonParse : List Nat → Except String JVal) (wrappedKey : JVal) :
    Except JsErr JVal :=
  match wrappedKey with
  | .jstr s =>
      if s.startsWith "pxp201:wk1:" then
        let b64url := s.drop "pxp201:wk1:".length
        let b64 : List Char :=
          b64url.data.map b64urlBack ++ List.replicate (3 - (b64url.length + 3) % 4) '='
        match atobBytes b64 with
        | .error e => .error (.error e)
        | .ok bytes =>
            match jsonParse bytes with
            | .error e => .error (.error e)
            | .ok v => .ok v
      else .error (.error "Not a wk1 key (expected prefix pxp201:wk1:)")
  | _ => .error (.error "wrappedKey must be a string")

/-- The WK1 tab field states touched by `fillFromBundle`.  Fields that JS
state can hold as arbitrary values are `JVal`; `parsed` keeps the decoded
payload object (the source stores its pretty-printed JSON). -/
structure WkSt where
  wrappedKey : JVal
  privHex : JVal
  pubHex : JVal
  aadText : String
  kid : JVal
  dekHexIn : JVal
  parsed : Option JVal

/-- The legacy single-recipient fallback of `fillFromBundle`
(lines 749–756). -/
def wk1LegacyFill (st : WkSt) (bundle : JVal) : WkSt :=
  let st1 := if jsTruthy (bundle.get? "wrappedKey") then
      { st with wrappedKey := (bundle.get? "wrappedKey").getD .jnull } else st
  let recip := bundle.get? "recipient"
  let st2 := if jsTruthy (optGet recip "recipientPrivHex") then
      { st1 with privHex := (optGet recip "recipientPrivHex").getD .jnull } else st1
  let st3 := if jsTruthy (optGet recip "recipientPubHex") then
      { st2 with pubHex := (optGet recip "recipientPubHex").getD .jnull } else st2
  let st4 := if jsTruthy (optGet recip "rid") then
      { st3 with kid := (optGet recip "rid").getD .jnull } else st3
  let st5 :=
    match bundle.get? "dekHex" with
    | some (.jstr s) => if s ≠ "" then { st4 with dekHexIn := .jstr s } else st4
    | _ => st4
  match optGet (bundle.get? "raw") "dekHex" with
  | some (.jstr s) => if s ≠ "" then { st5 with dekHexIn := .jstr s } else st5
  | _ => st5

/-- The aadText prefill of `fillFromBundle` (line 718):
`if (typeof bundle?.aadText === "string") setAadText(bundle.aadText || "")`. -/
def wk1AadFill (st : WkSt) (bundle : JVal) : WkSt :=
  match bundle.get? "aadText" with
  | some (.jstr s) => { st with aadText := jsOrStr s "" }
  | _ => st

/-- The WK1 tab `fillFromBundle` (lines 714–758): a pure update of the
panel fields from the parsed bundle; any throw is swallowed by the
surrounding try/catch, leaving the remaining fields unchanged. -/
def fillFromBundle (st : WkSt) (parsed : Except String JVal) (selectedRid : String)
    (jsonParse : List Nat → Except String JVal) : WkSt :=
  match parsed with
  | .error _ => st
  | .ok bundle =>
    let st1 := wk1AadFill st bundle
    let privMap := bundle.get? "recipientPrivHexByRid"
    match (jsOr (optGet (optGet (bundle.get? "envelope") "access") "recipients")
        (some (.jarr []))).getD (.jarr []) with
    | .jarr recips =>
      if recips.isEmpty then wk1LegacyFill st1 bundle
      else
        let ridToUse : Option JVal :=
          if selectedRid ≠ "" then some (.jstr selectedRid)
          else optGet recips.head? "rid"
        match findRecipEntry ridToUse recips with
        | .error _ => st1         -- TypeError, caught by the outer try/catch
        | .ok found =>
          let entry : JVal := found.getD (recips.headD .jnull)
          let st2 := if jsTruthy (entry.get? "wrappedKey") then
              { st1 with wrappedKey := (entry.get? "wrappedKey").getD .jnull } else st1
          let st3 := if jsTruthy (entry.get? "rid") then
              { st2 with kid := (entry.get? "rid").getD .jnull } else st2
          let st4 :=
            if jsTruthy privMap ∧ isObjLike privMap ∧ jsTruthy (entry.get? "rid") ∧
                jsTruthy (optGet privMap (jsPropKey (entry.get? "rid"))) then
              { st3 with privHex := (optGet privMap (jsPropKey (entry.get? "rid"))).getD .jnull }
            else st3
          let pubMap := bundle.get? "recipientPubHexByRid"
          let st5 :=
            if jsTruthy pubMap ∧ isObjLike pubMap ∧ jsTruthy (entry.get? "rid") ∧
                jsTruthy (optGet pubMap (jsPropKey (entry.get? "rid"))) then
              { st4 with pubHex := (optGet pubMap (jsPropKey (entry.get? "rid"))).getD .jnull }
            else st4
          if jsTruthy (entry.get? "wrappedKey") then
            match parseWk1 jsonParse ((entry.get? "wrappedKey").getD .jnull) with
            | .ok v => { st5 with parsed := some v }
            | .error _ => st5   -- inner try/catch swallows the parse failure
          else st5
    | _ => wk1LegacyFill st1 bundle

/-! ## The Vectors tab (`VectorsPanel`, App.jsx lines 933–1387) -/

/-- The `aadText` value of the rebuilt bundle (line 972):
`typeof v.aadText === "string" ? v.aadText : ""`. -/
def vectorBundleAadText (v : JVal) : JVal :=
  match v.get? "aadText" with
  | some (.jstr s) => .jstr s
  | _ => .jstr ""

/-- The `raw` object of the rebuilt bundle (lines 973–978). -/
def vectorBundleRaw (v : JVal) : JVal :=
  mkObj
    [("ciphertextB64url", optGet (v.get? "raw") "ciphertextB64url"),
     ("nonceB64url", optGet (v.get? "raw") "nonceB64url"),
     ("ciphertextHash", optGet (v.get? "raw") "ciphertextHash"),
     ("aadHash", if jsTruthy (optGet (v.get? "raw") "aadHash") then
         optGet (v.get? "raw") "aadHash" else none)]

/-- The `recipient` object of the rebuilt bundle (lines 981–985). -/
def vectorBundleRecipient (v : JVal) : JVal :=
  mkObj
    [("rid", v.get? "rid"),
     ("recipientPubHex", v.get? "recipientPubHex"),
     ("recipientPrivHex", v.get? "recipientPrivHex")]

/-- The bundle document `vectorToBundle` returns (lines 971–986). -/
def vectorBundle (v : JVal) : JVal :=
  mkObj
    [("aadText", some (vectorBundleAadText v)),
     ("raw", some (vectorBundleRaw v)),
     ("envelope", v.get? "envelope"),
     ("wrappedKey", v.get? "wrappedKey"),
     ("recipient", some (vectorBundleRecipient v))]

/-- `vectorToBundle` (lines 961–987): reject values that are not objects or
miss a required field; otherwise rebuild the Decrypt-tab bundle document
with the vector's fields. -/
def vectorToBundle (v : JVal) : Except JsErr JVal :=
  if ¬ (v.truthy ∧ isObjLike (some v)) then
    .error (.error "Invalid vector JSON")
  else if ¬ (jsTruthy (optGet (v.get? "raw") "ciphertextB64url") ∧
             jsTruthy (optGet (v.get? "raw") "nonceB64url")) then
    .error (.error "Vector missing raw.ciphertextB64url/nonceB64url")
  else if ¬ jsTruthy (v.get? "envelope") then
    .error (.error "Vector missing envelope")
  else if ¬ jsTruthy (v.get? "wrappedKey") then
    .error (.error "Vector missing wrappedKey")
  else if ¬ jsTruthy (v.get? "recipientPrivHex") then
    .error (.error "Vector missing recipientPrivHex. Re-export with include demo privkey enabled.")
  else
    .ok (vectorBundle v)

/-- The success payload of `runFromBundle`. -/
structure VecRunSuccess where
  plaintext : JVal
  hashMatch : Bool
  aadMatch : Bool
  rid : Option JVal

/-- The Vectors tab `runFromBundle` (lines 1016–1113), executed to
completion: supports the multi-recipient bundle and the legacy bundle with
a top-level `wrappedKey`, always choosing the first recipient entry. -/
def vectorsRunCore (parsed : Except String JVal) (sdk : Sdk) :
    Except JsErr VecRunSuccess × List SdkCall :=
  match parsed with
  | .error m => (.error (.error m), [])
  | .ok .jnull =>
      (.error (.error "Cannot destructure property raw of bundle as it is null"), [])
  | .ok bundle =>
    let raw := bundle.get? "raw"
    let envelope := bundle.get? "envelope"
    let aadText :=
      match bundle.get? "aadText" with
      | some (.jstr s) => s
      | _ => ""
    if ¬ (jsTruthy (optGet raw "ciphertextB64url") ∧ jsTruthy (optGet raw "nonceB64url")) then
      (.error (.error "bundle.raw missing ciphertextB64url/nonceB64url"), [])
    else if ¬ jsTruthy envelope then
      (.error (.error "bundle.envelope missing"), [])
    else
      let env := envelope.getD .jnull
      let tr0 := [SdkCall.validateEnvelope env]
      match sdk.validateEnvelope env with
      | .error e => (.error e, tr0)
      | .ok _ =>
        let wrappedKey0 := jsOr (bundle.get? "wrappedKey") (some (.jstr ""))
        let privHex0 := jsOr (optGet (bundle.get? "recipient") "recipientPrivHex")
            (some (.jstr ""))
        let rid0 := jsOr (jsOr (optGet (bundle.get? "recipient") "rid")
            (optGet (optGet (optGet envelope "access") "recipients") "0" |>.bind
              (JVal.get? · "rid"))) (some (.jstr ""))
        let resolved : Except JsErr (Option JVal × Option JVal × Option JVal) :=
          if ¬ jsTruthy wrappedKey0 then
            match (jsOr (optGet (optGet envelope "access") "recipients")
                (some (.jarr []))).getD (.jarr []) with
            | .jarr recips =>
              if recips.isEmpty then
                .error (.error "envelope.access.recipients missing/empty")
              else
                let entry : JVal := recips.headD .jnull
                if ¬ jsTruthy (entry.get? "wrappedKey") then
                  .error (.error "No wrappedKey found in envelope.access.recipients[0]")
                else
                  let rid1 := jsOr (entry.get? "rid") rid0
                  let privMap := bundle.get? "recipientPrivHexByRid"
                  let privHex1 :=
                    if jsTruthy privMap ∧ isObjLike privMap then
                      jsOr (optGet privMap (jsPropKey (entry.get? "rid"))) privHex0
                    else privHex0
                  .ok (entry.get? "wrappedKey", privHex1, rid1)
            | _ => .error (.error "envelope.access.recipients missing/empty")
          else .ok (wrappedKey0, privHex0, rid0)
        match resolved with
        | .error e => (.error e, tr0)
        | .ok (wrappedKey, privHex, rid) =>
          if ¬ jsTruthy wrappedKey then
            (.error (.error "No wrappedKey available in bundle (expected bundle.wrappedKey or envelope.access.recipients[0].wrappedKey)"), tr0)
          else if ¬ jsTruthy privHex then
            (.error (.error "No recipient privkey available in bundle (expected bundle.recipient.recipientPrivHex or bundle.recipientPrivHexByRid[rid])"), tr0)
          else
            let wk := wrappedKey.getD .jnull
            let pv := privHex.getD .jnull
            let aadO := aadOrUndef aadText
            let tr1 := tr0 ++ [SdkCall.unwrapDEK wk pv aadO]
            match sdk.unwrapDEK wk pv aadO with
            | .error e => (.error e, tr1)
            | .ok dek =>
              let ct := (optGet raw "ciphertextB64url").getD .jnull
              let nn := (optGet raw "nonceB64url").getD .jnull
              let tr2 := tr1 ++ [SdkCall.decryptText env dek ct nn aadO]
              match sdk.decryptText env dek ct nn aadO with
              | .error e => (.error e, tr2)
              | .ok pt =>
                (.ok { plaintext := pt,
                       hashMatch := jsStrictEq (optGet raw "ciphertextHash")
                         (env.get? "ciphertextHash"),
                       aadMatch := !jsTruthy (env.get? "aadHash") ||
                         jsStrictEq (optGet raw "aadHash") (env.get? "aadHash"),
                       rid := rid }, tr2)

/-! ## The Encrypt tab and the generate self-test (App.jsx lines 109–433, 1115–1212) -/

/-- Recipient row state of the Encrypt tab. -/
structure RecipSt where
  rid : String
  recipientPrivHex : String
  recipientPubHex : String
  deriving DecidableEq, Repr

/-- `ensureRecipientAt` (lines 129–147): keep a row that already has both
keys, otherwise fill both from freshly generated key material (the random
draw at index `i` is the `fresh` parameter). -/
def ensureRecipientAt (fresh : Nat → String × String) (i : Nat) (r : RecipSt) : RecipSt :=
  if r.recipientPrivHex ≠ "" ∧ r.recipientPubHex ≠ "" then r
  else { r with recipientPrivHex := (fresh i).1, recipientPubHex := (fresh i).2 }

/-- The ensured list `recipients.map((_, i) => ensureRecipientAt(i))`. -/
def recipReady (fresh : Nat → String × String) (recipients : List RecipSt) : List RecipSt :=
  recipients.enum.map fun p => ensureRecipientAt fresh p.1 p.2

/-- The `encryptTextRaw` output consumed by the panels; the DEK type is the
SDK's. -/
structure EncRaw (δ : Type) where
  dek : δ
  ciphertextB64url : String
  nonceB64url : String
  ciphertextHash : String
  aadHash : Option String

/-- One `{ rid, wrappedKey }` entry of `envelope.access.recipients`. -/
structure RecipEntry where
  rid : String
  wrappedKey : String
  deriving DecidableEq, Repr

/-- The envelope document the Encrypt tab and the generate self-test build
(lines 205–220 and 1142–1157). -/
structure EnvelopeDoc where
  v : String
  typ : String
  cipher : String
  kdf : String
  accessMode : String
  accessKem : String
  recipients : List RecipEntry
  uri : String
  ciphertextHash : String
  aadHash : Option String
  metaMime : String
  createdAt : Nat
  deriving DecidableEq, Repr

/-- Oracle for the SDK as used by the Encrypt and generate flows.
`encryptTextRaw` and `wrapDEK_secp256k1` produce values (the claims'
contract hypotheses make them succeed); validation, unwrap and decrypt may
reject. -/
structure GenSdk (δ : Type) where
  encryptTextRaw : String → String → Option String → EncRaw δ
  wrapDEK : δ → String → String → Option String → String
  validateEnvelope : EnvelopeDoc → Except JsErr Unit
  unwrapDEK : String → String → Option String → Except JsErr δ
  decryptText : EnvelopeDoc → δ → String → String → Option String → Except JsErr String

/-- The conditional spread `...(raw.aadHash ? { aadHash: raw.aadHash } : {})`:
the field appears only when the hash is truthy. -/
def truthyStr? (o : Option String) : Option String :=
  match o with
  | some s => if s ≠ "" then some s else none
  | none => none

/-- The recipient entries built by `runEncrypt` (lines 192–202): one wrap
call per ensured recipient. -/
def encRecipientEntries {δ : Type} (sdk : GenSdk δ) (raw : EncRaw δ) (aadText : String)
    (ready : List RecipSt) : List RecipEntry :=
  ready.map fun r =>
    { rid := r.rid,
      wrappedKey := sdk.wrapDEK raw.dek r.recipientPubHex r.rid (aadOrUndef aadText) }

/-- The envelope assembled by `runEncrypt` (lines 204–220). -/
def encEnvelope {δ : Type} (sdk : GenSdk δ) (raw : EncRaw δ) (aadText : String)
    (ready : List RecipSt) (now : Nat) : EnvelopeDoc :=
  { v := "0.1", typ := "PXP201", cipher := "AES-256-GCM", kdf := "HKDF-SHA256",
    accessMode := "RECIPIENTS", accessKem := "RECIPIENTS-SECP256K1-ECIES",
    recipients := encRecipientEntries sdk raw aadText ready,
    uri := "ipfs://<your-ciphertext-uri>",
    ciphertextHash := raw.ciphertextHash,
    aadHash := truthyStr? raw.aadHash,
    metaMime := "text/plain", createdAt := now }

/-- JS `Object.fromEntries` lookup: later entries overwrite earlier ones. -/
def fromEntriesLookup (l : List (String × String)) (k : String) : Option String :=
  (l.reverse.find? (fun p => p.1 = k)).map (·.2)

/-- The payload `downloadBundle` serialises (lines 258–282): `aadText`, the
`raw` object with exactly the ciphertext, nonce and hash fields, the
envelope from the encrypt run, and the two demo key maps. -/
structure BundlePayload where
  aadText : String
  rawCiphertextB64url : String
  rawNonceB64url : String
  rawCiphertextHash : String
  rawAadHash : Option String
  envelope : EnvelopeDoc
  recipientPrivHexByRid : List (String × String)
  recipientPubHexByRid : List (String × String)

/-- `downloadBundle` after a successful `runEncrypt`: the ensured recipient
list is recomputed (idempotent on already-filled rows) and the
`rawOut`/`envelope` state from the encrypt run is embedded with the two
key maps. -/
def downloadBundlePayload {δ : Type} (fresh : Nat → String × String) (aadText : String)
    (recipients : List RecipSt) (raw : EncRaw δ) (env : EnvelopeDoc) : BundlePayload :=
  let ready := recipReady fresh recipients
  { aadText := jsOrStr aadText "",
    rawCiphertextB64url := raw.ciphertextB64url,
    rawNonceB64url := raw.nonceB64url,
    rawCiphertextHash := raw.ciphertextHash,
    rawAadHash := truthyStr? raw.aadHash,
    envelope := env,
    recipientPrivHexByRid := ready.map fun r => (r.rid, r.recipientPrivHex),
    recipientPubHexByRid := ready.map fun r => (r.rid, r.recipientPubHex) }

/-- The checks reported by the Vectors self-test. -/
structure GenChecks where
  envelopeValid : Bool
  wk1Parsed : Bool
  hashMatch : Bool
  aadMatch : Bool
  decryptOk : Bool
  deriving DecidableEq, Repr

/-- The success payload of `runGenerate`. -/
structure GenSuccess where
  ok : Bool
  plaintext : String
  checks : GenChecks
  rid : String
  wrappedKey : String

/-- The fixed plaintext of the generate self-test (line 1120). -/
def vectorPlaintext : String := "vector: hello from PXP-201"

/-- The fixed AAD of the generate self-test (line 1121). -/
def vectorAad : String := "app:pxp201-ui|vectors:v0.1"

/-- The fixed demo rid of the generate self-test (line 1122). -/
def vectorRid : String := "did:pkh:eip155:1:0xDEMO_RECIPIENT"

/-- The `encryptTextRaw` result of `runGenerate` (lines 1129–1133). -/
def runGenerateRaw {δ : Type} (sdk : GenSdk δ) : EncRaw δ :=
  sdk.encryptTextRaw vectorPlaintext "AES-256-GCM" (some vectorAad)

/-- The wrapped key of `runGenerate` (lines 1135–1140). -/
def runGenerateWk {δ : Type} (sdk : GenSdk δ) (pubHex : String) : String :=
  sdk.wrapDEK (runGenerateRaw sdk).dek pubHex vectorRid (some vectorAad)

/-- The envelope of `runGenerate` (lines 1142–1157). -/
def runGenerateEnv {δ : Type} (sdk : GenSdk δ) (pubHex : String) (now : Nat) : EnvelopeDoc :=
  { v := "0.1", typ := "PXP201", cipher := "AES-256-GCM", kdf := "HKDF-SHA256",
    accessMode := "RECIPIENTS", accessKem := "RECIPIENTS-SECP256K1-ECIES",
    recipients := [{ rid := vectorRid, wrappedKey := runGenerateWk sdk pubHex }],
    uri := "ipfs://<your-ciphertext-uri>",
    ciphertextHash := (runGenerateRaw sdk).ciphertextHash,
    aadHash := truthyStr? (runGenerateRaw sdk).aadHash,
    metaMime := "text/plain", createdAt := now }

/-- `runGenerate` (lines 1115–1212): generate a keypair (the `privHex` and
`pubHex` parameters are the random draw), encrypt the fixed plaintext, wrap
for the demo rid, validate the envelope, unwrap and decrypt, then compare
the round trip in the reported checks. -/
def runGenerate {δ : Type} (sdk : GenSdk δ) (privHex pubHex : String) (now : Nat) :
    Except JsErr GenSuccess :=
  let raw := runGenerateRaw sdk
  let wk := runGenerateWk sdk pubHex
  let env := runGenerateEnv sdk pubHex now
  match sdk.validateEnvelope env with
  | .error e => .error e
  | .ok _ =>
    match sdk.unwrapDEK wk privHex (some vectorAad) with
    | .error e => .error e
    | .ok dek2 =>
      match sdk.decryptText env dek2 raw.ciphertextB64url raw.nonceB64url (some vectorAad) with
      | .error e => .error e
      | .ok plaintextOut =>
        let decryptOk := plaintextOut == vectorPlaintext
        let hashMatch := raw.ciphertextHash == env.ciphertextHash
        let aadMatch :=
          match env.aadHash with
          | none => true
          | some h => raw.aadHash == some h
        .ok { ok := decryptOk && hashMatch && aadMatch,
              plaintext := plaintextOut,
              checks := { envelopeValid := true, wk1Parsed := true,
                          hashMatch := hashMatch, aadMatch := aadMatch,
                          decryptOk := decryptOk },
              rid := vectorRid, wrappedKey := wk }

/-!
# Theorems

Everything below this point is a proof about the definitions above; no
further definitions of embedded repository code appear.
-/

/-! ### Lemmas about the hex codec -/

set_option maxRecDepth 8192 in
/-- One byte always renders as exactly two hex characters. -/
theorem byteHexChars_length : ∀ b : Nat, b < 256 → (byteHexChars b).length = 2 := by
  decide

set_option maxRecDepth 8192 in
/-- `parseInt(·, 16)` plus the `Uint8Array` store recovers the byte from its
two rendered hex characters. -/
theorem parseIntHex_byteHexChars :
    ∀ b : Nat, b < 256 → toUint8 (parseIntHex ⟨byteHexChars b⟩) = b := by
  decide

theorem chunk2_cons₂ (a b : Char) (t : List Char) :
    chunk2 (a :: b :: t) = [a, b] :: chunk2 t := rfl

/-- The hex body of a byte list has even length. -/
theorem hexBody_length_even (u8 : List Nat) (h : ∀ b ∈ u8, b < 256) :
    (hexBody u8).length % 2 = 0 := by
  induction u8 with
  | nil => rfl
  | cons b t ih =>
      have hb : b < 256 := h b (by simp)
      have ht := ih (fun x hx => h x (by simp [hx]))
      simp only [hexBody, List.length_append, byteHexChars_length b hb]
      omega

/-- Chunking the hex body and parsing each pair recovers the bytes. -/
theorem chunk2_hexBody (u8 : List Nat) (h : ∀ b ∈ u8, b < 256) :
    (chunk2 (hexBody u8)).map (fun p => toUint8 (parseIntHex ⟨p⟩)) = u8 := by
  induction u8 with
  | nil => rfl
  | cons b t ih =>
      have hb : b < 256 := h b (by simp)
      have ht := ih (fun x hx => h x (by simp [hx]))
      obtain ⟨c1, c2, hpair⟩ := List.length_eq_two.mp (byteHexChars_length b hb)
      have hparse := parseIntHex_byteHexChars b hb
      rw [hpair] at hparse
      simp [hexBody, hpair, chunk2_cons₂, hparse, ht]

/-- C8 (amended): for every byte array `u8`, `hexToU8 (u8ToHex u8)` returns
a byte array equal to `u8`; `hexToU8` throws its error exactly when the
string obtained by stripping an optional `0x` has odd length; and on even
lengths no error is raised — each byte is the JS `parseInt(pair, 16)` of its
2-character pair coerced by the `Uint8Array` store, so a pair with no
parseable hex prefix becomes 0 while a pair such as `"1z"` yields the value
of its parseable prefix rather than 0. -/
theorem c8_hex_roundtrip_and_errors :
    (∀ u8 : List Nat, (∀ b ∈ u8, b < 256) → hexToU8 (u8ToHex u8) = .ok u8) ∧
    (∀ s : String,
      hexToU8 s = .error "Invalid hex length" ↔ (strip0x s.data).length % 2 = 1) ∧
    (∀ s : String, (strip0x s.data).length % 2 = 0 →
      hexToU8 s = .ok ((chunk2 (strip0x s.data)).map fun p => toUint8 (parseIntHex ⟨p⟩))) := by
  refine ⟨?_, ?_, ?_⟩
  · intro u8 h
    simp [hexToU8, u8ToHex, strip0x, hexBody_length_even u8 h, chunk2_hexBody u8 h]
  · intro s
    rcases Nat.mod_two_eq_zero_or_one (strip0x s.data).length with h2 | h2 <;>
      simp [hexToU8, h2]
  · intro s h2
    simp [hexToU8, h2]

/-- Witness for `c8_hex_roundtrip_and_errors` at concrete inputs. -/
theorem c8_hex_roundtrip_and_errors_witness :
    hexToU8 (u8ToHex [0, 171, 255]) = .ok [0, 171, 255] ∧
    hexToU8 "7b2f" =
      .ok ((chunk2 (strip0x "7b2f".data)).map fun p => toUint8 (parseIntHex ⟨p⟩)) :=
  ⟨c8_hex_roundtrip_and_errors.1 [0, 171, 255] (by decide),
   c8_hex_roundtrip_and_errors.2.2 "7b2f" (by decide)⟩

/-- C8 counterexample: the even-length input `"1z"` contains a non-hex
character yet `hexToU8` stores the byte 1 (the value of the pair's parseable
prefix), not 0 — refuting the claim that affected bytes silently become 0. -/
theorem c8_nonhex_pair_counterexample :
    hexToU8 "1z" = .ok [1] ∧ ([1] : List Nat) ≠ [0] := by
  exact ⟨rfl, by simp⟩

/-! ### Lemmas about the base64url codec -/

set_option maxRecDepth 4096 in
/-- The sextet character table is inverted by `b64CharVal` below 64. -/
theorem b64CharVal_b64Char : ∀ n : Nat, n < 64 → b64CharVal (b64Char n) = some n := by
  decide

/-- Every sextet character lies in the base64 alphabet. -/
theorem b64Char_mem (n : Nat) : b64Char n ∈ b64Alphabet := by
  unfold b64Char
  rw [List.getD_eq_getElem?_getD]
  rcases h : b64Alphabet[n]? with _ | x
  · simp only [Option.getD_none]
    decide
  · simpa using List.getElem?_mem h

set_option maxRecDepth 4096 in
/-- Character-level facts about the base64 alphabet: no member is forgiving
base64 whitespace or `'='`, and the url-safe substitution is inverted by its
reverse substitution and never produces `'+'`, `'/'` or `'='`. -/
theorem b64Alphabet_facts :
    ∀ c ∈ b64Alphabet, asciiWs c = false ∧ c ≠ '=' ∧
      b64urlBack (b64urlFwd c) = c ∧
      b64urlFwd c ≠ '+' ∧ b64urlFwd c ≠ '/' ∧ b64urlFwd c ≠ '=' := by
  decide

/-- Structural facts about the `btoa` body: its characters are alphabet
members, body plus padding has length a multiple of 4, the padding is at
most two characters, and padding only occurs with a non-empty body. -/
theorem sextChars_props (u8 : List Nat) :
    (∀ c ∈ sextChars u8, c ∈ b64Alphabet) ∧
    ((sextChars u8).length + b64PadLen u8) % 4 = 0 ∧
    b64PadLen u8 ≤ 2 ∧ (b64PadLen u8 ≠ 0 → sextChars u8 ≠ []) := by
  induction u8 using sextChars.induct with
  | case1 a b c t ih =>
      obtain ⟨ihm, ihl, ihp, _⟩ := ih
      refine ⟨?_, ?_, ?_, ?_⟩
      · intro x hx
        simp only [sextChars, List.mem_cons] at hx
        rcases hx with h | h | h | h | h
        · subst h; exact b64Char_mem _
        · subst h; exact b64Char_mem _
        · subst h; exact b64Char_mem _
        · subst h; exact b64Char_mem _
        · exact ihm x h
      · simp only [sextChars, b64PadLen, List.length_cons]
        omega
      · simpa only [b64PadLen] using ihp
      · intro _
        simp [sextChars]
  | case2 a b =>
      refine ⟨?_, by simp [sextChars, b64PadLen], by simp [b64PadLen], by simp [sextChars]⟩
      intro x hx
      simp only [sextChars, List.mem_cons, List.not_mem_nil, or_false] at hx
      rcases hx with h | h | h <;> (subst h; exact b64Char_mem _)
  | case3 a =>
      refine ⟨?_, by simp [sextChars, b64PadLen], by simp [b64PadLen], by simp [sextChars]⟩
      intro x hx
      simp only [sextChars, List.mem_cons, List.not_mem_nil, or_false] at hx
      rcases hx with h | h <;> (subst h; exact b64Char_mem _)
  | case4 =>
      exact ⟨by simp [sextChars], by simp [sextChars, b64PadLen], by simp [b64PadLen],
        by simp [b64PadLen]⟩

/-- Decoding the `btoa` body recovers the bytes. -/
theorem sextetVals_sextChars (u8 : List Nat) (h : ∀ b ∈ u8, b < 256) :
    (sextetVals (sextChars u8)).map bytesOfSextets = .ok u8 := by
  induction u8 using sextChars.induct with
  | case1 a b c t ih =>
      have ha : a < 256 := h a (by simp)
      have hb : b < 256 := h b (by simp)
      have hc : c < 256 := h c (by simp)
      have iht := ih (fun x hx => h x (by simp [hx]))
      have h1 := b64CharVal_b64Char (a / 4) (by omega)
      have h2 := b64CharVal_b64Char (a % 4 * 16 + b / 16) (by omega)
      have h3 := b64CharVal_b64Char (b % 16 * 4 + c / 64) (by omega)
      have h4 := b64CharVal_b64Char (c % 64) (by omega)
      cases hv : sextetVals (sextChars t) with
      | error e =>
          rw [hv] at iht
          simp [Except.map] at iht
      | ok v =>
          rw [hv] at iht
          simp only [Except.map, Except.ok.injEq] at iht
          simp only [sextChars, sextetVals, h1, h2, h3, h4, hv, Except.map,
            bytesOfSextets, Except.ok.injEq, List.cons.injEq]
          refine ⟨by omega, by omega, by omega, iht⟩
  | case2 a b =>
      have ha : a < 256 := h a (by simp)
      have hb : b < 256 := h b (by simp)
      have h1 := b64CharVal_b64Char (a / 4) (by omega)
      have h2 := b64CharVal_b64Char (a % 4 * 16 + b / 16) (by omega)
      have h3 := b64CharVal_b64Char (b % 16 * 4) (by omega)
      simp only [sextChars, sextetVals, h1, h2, h3, Except.map, bytesOfSextets,
        Except.ok.injEq, List.cons.injEq]
      refine ⟨by omega, by omega, trivial⟩
  | case3 a =>
      have ha : a < 256 := h a (by simp)
      have h1 := b64CharVal_b64Char (a / 4) (by omega)
      have h2 := b64CharVal_b64Char (a % 4 * 16) (by omega)
      simp only [sextChars, sextetVals, h1, h2, Except.map, bytesOfSextets,
        Except.ok.injEq, List.cons.injEq]
      refine ⟨by omega, trivial⟩
  | case4 => rfl

/-- Removing the all-equals padding from a padded body whose characters are
never `'='` returns the body (the padding has at most two characters and is
non-empty only for a non-empty body). -/
theorem stripUpTo2Eq_append (l : List Char) (p : Nat) (hp : p ≤ 2)
    (hl : ∀ c ∈ l, c ≠ '=') (hnp : p ≠ 0 → l ≠ []) :
    stripUpTo2Eq (l ++ List.replicate p '=') = l := by
  unfold stripUpTo2Eq
  interval_cases p
  · -- no padding
    simp only [List.replicate, List.append_nil]
    cases hr : l.reverse with
    | nil => simp [List.reverse_eq_nil_iff.mp hr]
    | cons x t =>
        have hx : x ∈ l := by
          have : x ∈ l.reverse := by simp [hr]
          simpa using this
        have hxne : x ≠ '=' := hl x hx
        simp [hr, hxne]
  · -- one '='
    have hne : l ≠ [] := hnp (by simp)
    cases hr : l.reverse with
    | nil => exact absurd (List.reverse_eq_nil_iff.mp hr) hne
    | cons x t =>
        have hx : x ∈ l := by
          have : x ∈ l.reverse := by simp [hr]
          simpa using this
        have hxne : x ≠ '=' := hl x hx
        simp only [List.replicate, List.reverse_append, List.reverse_cons,
          List.reverse_nil, List.nil_append, List.cons_append, hr]
        simp [hxne, List.take, List.drop, ← hr]
  · -- two '='
    simp only [List.replicate, List.reverse_append, List.reverse_cons,
      List.reverse_nil, List.nil_append, List.cons_append]
    simp [List.take, List.drop]

/-- Dropping the all-equals padding via the anchored trailing-equals strip
keeps exactly the body when the body has no `'='`. -/
theorem stripTrailingEq_append (l : List Char) (p : Nat) (hl : ∀ c ∈ l, c ≠ '=') :
    stripTrailingEq (l ++ List.replicate p '=') = l := by
  unfold stripTrailingEq
  rw [List.reverse_append, List.reverse_replicate]
  have hrep : (List.replicate p '=').dropWhile (fun c => c = '=') = [] := by
    induction p with
    | zero => rfl
    | succ n ih => simp [List.replicate, List.dropWhile, ih]
  rw [List.dropWhile_append, hrep]
  simp only [List.isEmpty_nil, if_true]
  cases hr : l.reverse with
  | nil => simp [List.reverse_eq_nil_iff.mp hr]
  | cons x t =>
      have hx : x ∈ l := by
        have : x ∈ l.reverse := by simp [hr]
        simpa using this
      have hxne : x ≠ '=' := hl x hx
      rw [List.dropWhile_cons_of_neg (by simpa using hxne), ← hr, List.reverse_reverse]

/-- The output characters of `u8ToB64url` are exactly the forward-substituted
`btoa` body (the padding having been stripped by the trailing replace). -/
theorem u8ToB64url_data (u8 : List Nat) :
    (u8ToB64url u8).data = (sextChars u8).map b64urlFwd := by
  have hmem := (sextChars_props u8).1
  show stripTrailingEq ((btoaChars u8).map b64urlFwd) = _
  unfold btoaChars
  rw [List.map_append, List.map_replicate]
  have hfw : b64urlFwd '=' = '=' := rfl
  rw [hfw]
  apply stripTrailingEq_append
  intro c hc
  obtain ⟨d, hd, rfl⟩ := List.mem_map.mp hc
  exact (b64Alphabet_facts d (hmem d hd)).2.2.2.2.2

/-- C9: base64url decoding inverts encoding on byte arrays, and the encoded
string never contains `'+'`, `'/'` or `'='`. -/
theorem c9_b64url_roundtrip_and_alphabet :
    (∀ u8 : List Nat, (∀ b ∈ u8, b < 256) → b64urlToU8 (u8ToB64url u8) = .ok u8) ∧
    (∀ u8 : List Nat, ∀ c ∈ (u8ToB64url u8).data, c ≠ '+' ∧ c ≠ '/' ∧ c ≠ '=') := by
  constructor
  · intro u8 h
    obtain ⟨hmem, hlen4, hple, hpne⟩ := sextChars_props u8
    have hdata := u8ToB64url_data u8
    have hback : (u8ToB64url u8).data.map b64urlBack = sextChars u8 := by
      rw [hdata, List.map_map]
      have : ∀ d ∈ sextChars u8, (b64urlBack ∘ b64urlFwd) d = id d := by
        intro d hd
        exact (b64Alphabet_facts d (hmem d hd)).2.2.1
      rw [List.map_congr_left this, List.map_id]
    have hlen : (u8ToB64url u8).length = (sextChars u8).length := by
      rw [String.length, hdata, List.length_map]
    show atobBytes (((u8ToB64url u8).data.map b64urlBack) ++
      List.replicate (((u8ToB64url u8).length + 3) / 4 * 4 -
        ((u8ToB64url u8).data.map b64urlBack).length) '=') = .ok u8
    rw [hback, hlen]
    have hp : ((sextChars u8).length + 3) / 4 * 4 - (sextChars u8).length = b64PadLen u8 := by
      omega
    rw [hp]
    have hfil : (sextChars u8 ++ List.replicate (b64PadLen u8) '=').filter
        (fun c => !asciiWs c) = sextChars u8 ++ List.replicate (b64PadLen u8) '=' := by
      apply List.filter_eq_self.mpr
      intro a hamem
      rcases List.mem_append.mp hamem with hm | hr
      · simp [(b64Alphabet_facts a (hmem a hm)).1]
      · have ha : a = '=' := List.eq_of_mem_replicate hr
        subst ha; rfl
    have hlen0 : (sextChars u8 ++ List.replicate (b64PadLen u8) '=').length % 4 = 0 := by
      rw [List.length_append, List.length_replicate]
      omega
    have hne1 : ¬ (sextChars u8).length % 4 = 1 := by omega
    have hlne : ∀ c ∈ sextChars u8, c ≠ '=' := fun c hc =>
      (b64Alphabet_facts c (hmem c hc)).2.1
    unfold atobBytes
    simp only [hfil, hlen0, if_true]
    rw [stripUpTo2Eq_append _ _ hple hlne hpne, if_neg hne1]
    exact sextetVals_sextChars u8 h
  · intro u8 c hc
    rw [u8ToB64url_data] at hc
    obtain ⟨d, hd, rfl⟩ := List.mem_map.mp hc
    have hfacts := b64Alphabet_facts d ((sextChars_props u8).1 d hd)
    exact ⟨hfacts.2.2.2.1, hfacts.2.2.2.2.1, hfacts.2.2.2.2.2⟩

/-- Witness for `c9_b64url_roundtrip_and_alphabet` at a concrete byte array. -/
theorem c9_b64url_roundtrip_and_alphabet_witness :
    b64urlToU8 (u8ToB64url [0, 251, 239, 64]) = .ok [0, 251, 239, 64] :=
  c9_b64url_roundtrip_and_alphabet.1 [0, 251, 239, 64] (by decide)

/-! ### C2: `parseWk1` rejection behaviour -/

/-- C2: `parseWk1` throws on every input that is not a string, and on every
string that does not start with `pxp201:wk1:` it throws an error whose
message names the expected prefix (the prefix occurs verbatim in the
message). -/
theorem c2_parseWk1_rejects :
    (∀ (jp : List Nat → Except String JVal) (v : JVal), (∀ s, v ≠ .jstr s) →
      parseWk1 jp v = .error (.error "wrappedKey must be a string")) ∧
    (∀ (jp : List Nat → Except String JVal) (s : String),
      s.startsWith "pxp201:wk1:" = false →
      parseWk1 jp (.jstr s) =
        .error (.error "Not a wk1 key (expected prefix pxp201:wk1:)")) ∧
    (∃ pre post : String,
      "Not a wk1 key (expected prefix pxp201:wk1:)" = pre ++ "pxp201:wk1:" ++ post) := by
  refine ⟨?_, ?_, "Not a wk1 key (expected prefix ", ")", by decide⟩
  · intro jp v h
    cases v with
    | jstr s => exact absurd rfl (h s)
    | jnull => rfl
    | jbool b => rfl
    | jnum n => rfl
    | jarr l => rfl
    | jobj fs => rfl
  · intro jp s h
    simp [parseWk1, h]

/-- Witness for `c2_parseWk1_rejects` at concrete inputs. -/
theorem c2_parseWk1_rejects_witness :
    parseWk1 (fun _ => .error "noparse") (.jnum 5) =
      .error (.error "wrappedKey must be a string") ∧
    parseWk1 (fun _ => .error "noparse") (.jstr "hello") =
      .error (.error "Not a wk1 key (expected prefix pxp201:wk1:)") :=
  ⟨c2_parseWk1_rejects.1 _ (.jnum 5) (fun _ h => JVal.noConfusion h),
   c2_parseWk1_rejects.2.1 _ "hello" (by decide)⟩

/-! ### C4: failures are caught at the UI-action boundary -/

/-- C4 (amended): the Decrypt-tab run action never propagates a failure:
for every bundle-input parse outcome, panel state and SDK behaviour it
produces an `out` state, with an empty error on success and otherwise the
error field set to exactly `String(e?.message || e)` of the thrown or
rejected value.  Every `Error` thrown (in particular the code's own
validation errors) yields a non-empty message; but the message is the empty
string when an SDK rejection value stringifies to the empty string, so the
inline message is not always non-empty. -/
theorem c4_failures_caught :
    (∀ (parsed : Except String JVal) (aadOverride selectedRid : String) (sdk : Sdk),
      ((decryptRunState parsed aadOverride selectedRid sdk).1.ok = true ∧
       (decryptRunState parsed aadOverride selectedRid sdk).1.error = "") ∨
      (∃ e, (decryptRunCore parsed aadOverride selectedRid sdk).1 = .error e ∧
        (decryptRunState parsed aadOverride selectedRid sdk).1.ok = false ∧
        (decryptRunState parsed aadOverride selectedRid sdk).1.error = errMessage e)) ∧
    (∀ m : String, errMessage (.error m) ≠ "") := by
  constructor
  · intro parsed a r sdk
    rcases h : decryptRunCore parsed a r sdk with ⟨res, tr⟩
    cases res with
    | ok s =>
        left
        constructor <;> simp [decryptRunState, h]
    | error e =>
        right
        exact ⟨e, by simp [h], by simp [decryptRunState, h], by simp [decryptRunState, h]⟩
  · intro m
    unfold errMessage
    by_cases h : m = "" <;> simp [h]

/-- C4 counterexample: on a well-formed bundle, an SDK rejection whose
value is the empty string leaves `out.error = ""` — an empty, not a
non-empty, message. -/
theorem c4_empty_message_counterexample :
    (decryptRunState (.ok (.jobj
      [("raw", .jobj [("ciphertextB64url", .jstr "c"), ("nonceB64url", .jstr "n")]),
       ("envelope", .jobj [("access", .jobj [("recipients",
          .jarr [.jobj [("rid", .jstr "r1"), ("wrappedKey", .jstr "wk1")]])])]),
       ("recipientPrivHexByRid", .jobj [("r1", .jstr "p1")])]))
      "aad" ""
      { validateEnvelope := fun _ => .ok (),
        unwrapDEK := fun _ _ _ => .error (.val (.jstr "")),
        decryptText := fun _ _ _ _ _ => .error (.error "unused") }).1 =
    { ok := false, plaintext := .jstr "", info := none, error := "" } := by
  rfl

/-! ### C1: rejection of bundles without usable recipients -/

/-- C1 (amended): a bundle whose resolved `envelope.access.recipients` is
missing, not an array, or empty is rejected with an error before any
unwrap or decrypt SDK call — but after `validateEnvelope`, an external SDK
call, has been invoked on the envelope: at the rejection the SDK-call trace
is exactly that one `validateEnvelope` call.  This holds for the
Decrypt-tab run unconditionally, and for the Vectors-tab bundle run for
bundles without a truthy legacy top-level `wrappedKey` (a legacy bundle
bypasses the recipients check there). -/
theorem c1_recipients_rejected_after_validate :
    (∀ (bundle : JVal) (aadOverride selectedRid : String) (sdk : Sdk),
      jsTruthy (optGet (bundle.get? "raw") "ciphertextB64url") = true →
      jsTruthy (optGet (bundle.get? "raw") "nonceB64url") = true →
      jsTruthy (bundle.get? "envelope") = true →
      recipientsUnusable bundle = true →
      (∃ e, (decryptRunCore (.ok bundle) aadOverride selectedRid sdk).1 = .error e) ∧
      (decryptRunCore (.ok bundle) aadOverride selectedRid sdk).2 =
        [SdkCall.validateEnvelope ((bundle.get? "envelope").getD .jnull)]) ∧
    (∀ (bundle : JVal) (sdk : Sdk),
      jsTruthy (optGet (bundle.get? "raw") "ciphertextB64url") = true →
      jsTruthy (optGet (bundle.get? "raw") "nonceB64url") = true →
      jsTruthy (bundle.get? "envelope") = true →
      jsTruthy (bundle.get? "wrappedKey") = false →
      recipientsUnusable bundle = true →
      (∃ e, (vectorsRunCore (.ok bundle) sdk).1 = .error e) ∧
      (vectorsRunCore (.ok bundle) sdk).2 =
        [SdkCall.validateEnvelope ((bundle.get? "envelope").getD .jnull)]) := by
  have hto : strToNat? "envelope" = none := rfl
  constructor
  · intro bundle a r sdk h1 h2 h3 h4
    cases bundle with
    | jobj fs =>
        unfold recipientsUnusable at h4
        simp only [decryptRunCore]
        rw [if_neg (fun hC => hC ⟨h1, h2⟩), if_neg (fun hC => hC h3)]
        cases hv : sdk.validateEnvelope ((JVal.get? (.jobj fs) "envelope").getD .jnull) with
        | error e => exact ⟨⟨e, rfl⟩, rfl⟩
        | ok u =>
            cases u
            cases hS : (jsOr (optGet (optGet (JVal.get? (.jobj fs) "envelope") "access")
                "recipients") (some (.jarr []))).getD (.jarr []) with
            | jarr recips =>
                rw [hS] at h4
                replace h4 : recips.isEmpty = true := h4
                simp only [h4]
                exact ⟨⟨_, rfl⟩, rfl⟩
            | jnull => exact ⟨⟨_, rfl⟩, rfl⟩
            | jbool b => exact ⟨⟨_, rfl⟩, rfl⟩
            | jnum n => exact ⟨⟨_, rfl⟩, rfl⟩
            | jstr s => exact ⟨⟨_, rfl⟩, rfl⟩
            | jobj fs2 => exact ⟨⟨_, rfl⟩, rfl⟩
    | jnull => simp [JVal.get?, jsTruthy] at h3
    | jbool b => simp [JVal.get?, jsTruthy] at h3
    | jnum n => simp [JVal.get?, jsTruthy] at h3
    | jstr s => simp [JVal.get?, jsTruthy] at h3
    | jarr l => simp [JVal.get?, jsTruthy, hto] at h3
  · intro bundle sdk h1 h2 h3 hwk h4
    cases bundle with
    | jobj fs =>
        unfold recipientsUnusable at h4
        simp only [vectorsRunCore]
        rw [if_neg (fun hC => hC ⟨h1, h2⟩), if_neg (fun hC => hC h3)]
        cases hv : sdk.validateEnvelope ((JVal.get? (.jobj fs) "envelope").getD .jnull) with
        | error e => exact ⟨⟨e, rfl⟩, rfl⟩
        | ok u =>
            cases u
            have hwk0 : ¬ jsTruthy (jsOr (JVal.get? (.jobj fs) "wrappedKey")
                (some (.jstr ""))) = true := by
              unfold jsOr
              rw [hwk]
              simp [jsTruthy, JVal.truthy]
            rw [if_pos hwk0]
            cases hS : (jsOr (optGet (optGet (JVal.get? (.jobj fs) "envelope") "access")
                "recipients") (some (.jarr []))).getD (.jarr []) with
            | jarr recips =>
                rw [hS] at h4
                replace h4 : recips.isEmpty = true := h4
                simp only [h4]
                exact ⟨⟨_, rfl⟩, rfl⟩
            | jnull => exact ⟨⟨_, rfl⟩, rfl⟩
            | jbool b => exact ⟨⟨_, rfl⟩, rfl⟩
            | jnum n => exact ⟨⟨_, rfl⟩, rfl⟩
            | jstr s => exact ⟨⟨_, rfl⟩, rfl⟩
            | jobj fs2 => exact ⟨⟨_, rfl⟩, rfl⟩
    | jnull => simp [JVal.get?, jsTruthy] at h3
    | jbool b => simp [JVal.get?, jsTruthy] at h3
    | jnum n => simp [JVal.get?, jsTruthy] at h3
    | jstr s => simp [JVal.get?, jsTruthy] at h3
    | jarr l => simp [JVal.get?, jsTruthy, hto] at h3

/-- Witness for `c1_recipients_rejected_after_validate` at a concrete
bundle with an envelope but no recipients. -/
theorem c1_recipients_rejected_after_validate_witness :
    ((∃ e, (decryptRunCore (.ok (.jobj
        [("raw", .jobj [("ciphertextB64url", .jstr "c"), ("nonceB64url", .jstr "n")]),
         ("envelope", .jobj [])])) "" ""
        ⟨fun _ => .ok (), fun _ _ _ => .error (.error "unused"),
         fun _ _ _ _ _ => .error (.error "unused")⟩).1 = .error e) ∧
      (decryptRunCore (.ok (.jobj
        [("raw", .jobj [("ciphertextB64url", .jstr "c"), ("nonceB64url", .jstr "n")]),
         ("envelope", .jobj [])])) "" ""
        ⟨fun _ => .ok (), fun _ _ _ => .error (.error "unused"),
         fun _ _ _ _ _ => .error (.error "unused")⟩).2 =
        [SdkCall.validateEnvelope ((JVal.jobj
          [("raw", .jobj [("ciphertextB64url", .jstr "c"), ("nonceB64url", .jstr "n")]),
           ("envelope", .jobj [])]).get? "envelope" |>.getD .jnull)]) ∧
    ((∃ e, (vectorsRunCore (.ok (.jobj
        [("raw", .jobj [("ciphertextB64url", .jstr "c"), ("nonceB64url", .jstr "n")]),
         ("envelope", .jobj [])]))
        ⟨fun _ => .ok (), fun _ _ _ => .error (.error "unused"),
         fun _ _ _ _ _ => .error (.error "unused")⟩).1 = .error e) ∧
      (vectorsRunCore (.ok (.jobj
        [("raw", .jobj [("ciphertextB64url", .jstr "c"), ("nonceB64url", .jstr "n")]),
         ("envelope", .jobj [])]))
        ⟨fun _ => .ok (), fun _ _ _ => .error (.error "unused"),
         fun _ _ _ _ _ => .error (.error "unused")⟩).2 =
        [SdkCall.validateEnvelope ((JVal.jobj
          [("raw", .jobj [("ciphertextB64url", .jstr "c"), ("nonceB64url", .jstr "n")]),
           ("envelope", .jobj [])]).get? "envelope" |>.getD .jnull)]) :=
  ⟨c1_recipients_rejected_after_validate.1 _ "" ""
      ⟨fun _ => .ok (), fun _ _ _ => .error (.error "unused"),
       fun _ _ _ _ _ => .error (.error "unused")⟩ rfl rfl rfl rfl,
   c1_recipients_rejected_after_validate.2 _
      ⟨fun _ => .ok (), fun _ _ _ => .error (.error "unused"),
       fun _ _ _ _ _ => .error (.error "unused")⟩ rfl rfl rfl rfl rfl⟩

/-- C1 counterexample: on a bundle whose envelope lacks
`access.recipients`, the Decrypt-tab run does reject, but its SDK-call
trace already contains the `validateEnvelope` call — per the spec an
external SDK operation — so the rejection does not happen before every
cryptographic-collaborator call. -/
theorem c1_validate_called_counterexample :
    (decryptRunCore (.ok (.jobj
        [("raw", .jobj [("ciphertextB64url", .jstr "c"), ("nonceB64url", .jstr "n")]),
         ("envelope", .jobj [])])) "" ""
      ⟨fun _ => .ok (), fun _ _ _ => .error (.error "unused"),
       fun _ _ _ _ _ => .error (.error "unused")⟩).1 =
      .error (.error "envelope.access.recipients missing/empty") ∧
    (decryptRunCore (.ok (.jobj
        [("raw", .jobj [("ciphertextB64url", .jstr "c"), ("nonceB64url", .jstr "n")]),
         ("envelope", .jobj [])])) "" ""
      ⟨fun _ => .ok (), fun _ _ _ => .error (.error "unused"),
       fun _ _ _ _ _ => .error (.error "unused")⟩).2 =
      [SdkCall.validateEnvelope (.jobj [])] :=
  ⟨rfl, rfl⟩

/-! ### C3: the generate self-test round trip -/

/-- C3: under the SDK contract hypotheses — `unwrapDEK_secp256k1` inverts
`wrapDEK_secp256k1` for the generated keypair and matching AAD,
`decryptTextFromEnvelope` inverts `encryptTextRaw` for the matching DEK,
ciphertext, nonce and AAD, and the generated envelope passes
`validateEnvelope` — the Vectors self-test decrypts back the original
plaintext `"vector: hello from PXP-201"` and reports `decryptOk`,
`hashMatch` and `aadMatch` all true, with overall result ok. -/
theorem c3_runGenerate_roundtrip {δ : Type} (sdk : GenSdk δ) (privHex pubHex : String)
    (now : Nat)
    (hUnwrap : ∀ (dek : δ) (kid : String) (aad : Option String),
      sdk.unwrapDEK (sdk.wrapDEK dek pubHex kid aad) privHex aad = .ok dek)
    (hDec : ∀ (pt cipher : String) (aad : Option String) (env : EnvelopeDoc),
      env.ciphertextHash = (sdk.encryptTextRaw pt cipher aad).ciphertextHash →
      sdk.decryptText env (sdk.encryptTextRaw pt cipher aad).dek
        (sdk.encryptTextRaw pt cipher aad).ciphertextB64url
        (sdk.encryptTextRaw pt cipher aad).nonceB64url aad = .ok pt)
    (hVal : sdk.validateEnvelope (runGenerateEnv sdk pubHex now) = .ok ()) :
    ∃ g, runGenerate sdk privHex pubHex now = .ok g ∧
      g.plaintext = "vector: hello from PXP-201" ∧
      g.checks.decryptOk = true ∧ g.checks.hashMatch = true ∧
      g.checks.aadMatch = true ∧ g.ok = true := by
  have hu : sdk.unwrapDEK (runGenerateWk sdk pubHex) privHex (some vectorAad) =
      .ok (runGenerateRaw sdk).dek := by
    unfold runGenerateWk
    exact hUnwrap _ _ _
  have hh : (runGenerateEnv sdk pubHex now).ciphertextHash =
      (sdk.encryptTextRaw vectorPlaintext "AES-256-GCM" (some vectorAad)).ciphertextHash := rfl
  have hd : sdk.decryptText (runGenerateEnv sdk pubHex now) (runGenerateRaw sdk).dek
      (runGenerateRaw sdk).ciphertextB64url (runGenerateRaw sdk).nonceB64url
      (some vectorAad) = .ok vectorPlaintext := by
    unfold runGenerateRaw
    exact hDec vectorPlaintext "AES-256-GCM" (some vectorAad) _ hh
  have hdo : (vectorPlaintext == vectorPlaintext) = true := by simp
  have hhm : ((runGenerateRaw sdk).ciphertextHash ==
      (runGenerateEnv sdk pubHex now).ciphertextHash) = true := by
    show ((runGenerateRaw sdk).ciphertextHash == (runGenerateRaw sdk).ciphertextHash) = true
    simp
  have ham : (match (runGenerateEnv sdk pubHex now).aadHash with
      | none => true
      | some h => (runGenerateRaw sdk).aadHash == some h) = true := by
    show (match truthyStr? (runGenerateRaw sdk).aadHash with
      | none => true
      | some h => (runGenerateRaw sdk).aadHash == some h) = true
    cases hah : (runGenerateRaw sdk).aadHash with
    | none => simp [truthyStr?]
    | some s =>
        by_cases hs : s = "" <;> simp [truthyStr?, hs]
  simp only [runGenerate, hVal, hu, hd]
  exact ⟨_, rfl, rfl, by simp [hdo], by simp [hhm], by simp [ham], by simp [hdo, hhm, ham]⟩

/-- Witness for `c3_runGenerate_roundtrip` with a concrete SDK satisfying
the contracts (the DEK carries the plaintext, wrap and unwrap are the
identity). -/
theorem c3_runGenerate_roundtrip_witness :
    ∃ g, runGenerate (δ := String)
      ⟨fun pt _ _ => ⟨pt, "ct", "n", "h", none⟩, fun d _ _ _ => d, fun _ => .ok (),
       fun w _ _ => .ok w, fun _ d _ _ _ => .ok d⟩ "p" "q" 0 = .ok g ∧
      g.plaintext = "vector: hello from PXP-201" ∧
      g.checks.decryptOk = true ∧ g.checks.hashMatch = true ∧
      g.checks.aadMatch = true ∧ g.ok = true :=
  c3_runGenerate_roundtrip _ "p" "q" 0 (fun _ _ _ => rfl) (fun _ _ _ _ _ => rfl) rfl

/-! ### C6: the downloadable bundle convention -/

/-- `Object.fromEntries` recovers each value when the keys are distinct. -/
theorem fromEntriesLookup_nodup (l : List (String × String))
    (h : (l.map Prod.fst).Nodup) : ∀ p ∈ l, fromEntriesLookup l p.1 = some p.2 := by
  induction l with
  | nil => intro p hp; cases hp
  | cons a t ih =>
      intro p hp
      simp only [List.map_cons, List.nodup_cons] at h
      obtain ⟨ha, ht⟩ := h
      unfold fromEntriesLookup
      rw [List.reverse_cons, List.find?_append]
      rcases List.mem_cons.mp hp with rfl | hpt
      · have hnone : t.reverse.find? (fun q => q.1 = p.1) = none := by
          rw [List.find?_eq_none]
          intro x hx
          simp only [decide_eq_true_eq]
          intro hx1
          exact ha (by
            rw [← hx1]
            exact List.mem_map_of_mem _ (List.mem_reverse.mp hx))
        rw [hnone]
        simp
      · have hlook := ih ht p hpt
        unfold fromEntriesLookup at hlook
        rcases hfind : t.reverse.find? (fun q => q.1 = p.1) with _ | q
        · rw [hfind] at hlook
          simp at hlook
        · rw [hfind] at hlook
          rw [hfind]
          exact hlook

/-- C6 (amended): after a successful Encrypt-tab run, the downloaded bundle
payload carries `aadText` as a string, a `raw` object with exactly the
ciphertext, nonce and ciphertext-hash fields plus `aadHash` only when the
encryption produced a truthy one, the envelope whose `access.recipients`
holds one `{ rid, wrappedKey }` entry per ensured recipient, and the two
key maps built by `Object.fromEntries` — which map each rid to the key
material of the LAST recipient bearing that rid, hence to each recipient's
own keys exactly when the rids are pairwise distinct. -/
theorem c6_downloadBundle_shape {δ : Type} (sdk : GenSdk δ) (fresh : Nat → String × String)
    (aadText : String) (recipients : List RecipSt) (raw : EncRaw δ) (now : Nat)
    (env : EnvelopeDoc)
    (henv : env = encEnvelope sdk raw aadText (recipReady fresh recipients) now) :
    (downloadBundlePayload fresh aadText recipients raw env).aadText = jsOrStr aadText "" ∧
    (downloadBundlePayload fresh aadText recipients raw env).rawCiphertextB64url =
      raw.ciphertextB64url ∧
    (downloadBundlePayload fresh aadText recipients raw env).rawNonceB64url =
      raw.nonceB64url ∧
    (downloadBundlePayload fresh aadText recipients raw env).rawCiphertextHash =
      raw.ciphertextHash ∧
    (downloadBundlePayload fresh aadText recipients raw env).rawAadHash =
      truthyStr? raw.aadHash ∧
    (∀ s : String, raw.aadHash = some s → s ≠ "" →
      (downloadBundlePayload fresh aadText recipients raw env).rawAadHash = some s) ∧
    (downloadBundlePayload fresh aadText recipients raw env).envelope.recipients =
      (recipReady fresh recipients).map (fun r =>
        { rid := r.rid,
          wrappedKey := sdk.wrapDEK raw.dek r.recipientPubHex r.rid (aadOrUndef aadText) }) ∧
    (downloadBundlePayload fresh aadText recipients raw env).envelope.recipients.map
        RecipEntry.rid = (recipReady fresh recipients).map RecipSt.rid ∧
    (downloadBundlePayload fresh aadText recipients raw env).envelope.recipients.length =
      recipients.length ∧
    (((recipReady fresh recipients).map RecipSt.rid).Nodup →
      ∀ r ∈ recipReady fresh recipients,
        fromEntriesLookup (downloadBundlePayload fresh aadText recipients raw
          env).recipientPrivHexByRid r.rid = some r.recipientPrivHex ∧
        fromEntriesLookup (downloadBundlePayload fresh aadText recipients raw
          env).recipientPubHexByRid r.rid = some r.recipientPubHex) := by
  subst henv
  refine ⟨rfl, rfl, rfl, rfl, rfl, ?_, rfl, ?_, ?_, ?_⟩
  · intro s hs hne
    simp [downloadBundlePayload, truthyStr?, hs, hne]
  · simp [downloadBundlePayload, encEnvelope, encRecipientEntries, List.map_map,
      Function.comp]
  · simp [downloadBundlePayload, encEnvelope, encRecipientEntries, recipReady]
  · intro hnd r hr
    have hkeysPriv : (((recipReady fresh recipients).map
        (fun r => (r.rid, r.recipientPrivHex))).map Prod.fst).Nodup := by
      simpa [List.map_map, Function.comp] using hnd
    have hkeysPub : (((recipReady fresh recipients).map
        (fun r => (r.rid, r.recipientPubHex))).map Prod.fst).Nodup := by
      simpa [List.map_map, Function.comp] using hnd
    constructor
    · exact fromEntriesLookup_nodup _ hkeysPriv (r.rid, r.recipientPrivHex)
        (List.mem_map_of_mem _ hr)
    · exact fromEntriesLookup_nodup _ hkeysPub (r.rid, r.recipientPubHex)
        (List.mem_map_of_mem _ hr)

/-- Witness for `c6_downloadBundle_shape` at a concrete two-recipient state
with distinct rids and a produced aadHash. -/
theorem c6_downloadBundle_shape_witness :
    fromEntriesLookup (downloadBundlePayload (fun _ => ("x", "y")) "aad"
        [⟨"a", "0x01", "0xp1"⟩, ⟨"b", "0x02", "0xp2"⟩]
        (⟨"dek", "ct", "n", "h", some "ah"⟩ : EncRaw String)
        (encEnvelope ⟨fun pt _ _ => ⟨pt, "ct", "n", "h", some "ah"⟩, fun d _ _ _ => d,
          fun _ => .ok (), fun w _ _ => .ok w, fun _ d _ _ _ => .ok d⟩
          ⟨"dek", "ct", "n", "h", some "ah"⟩ "aad"
          (recipReady (fun _ => ("x", "y")) [⟨"a", "0x01", "0xp1"⟩, ⟨"b", "0x02", "0xp2"⟩])
          0)).recipientPrivHexByRid "a" = some "0x01" :=
  ((c6_downloadBundle_shape
      ⟨fun pt _ _ => ⟨pt, "ct", "n", "h", some "ah"⟩, fun d _ _ _ => d,
        fun _ => .ok (), fun w _ _ => .ok w, fun _ d _ _ _ => .ok d⟩
      (fun _ => ("x", "y")) "aad" [⟨"a", "0x01", "0xp1"⟩, ⟨"b", "0x02", "0xp2"⟩]
      (⟨"dek", "ct", "n", "h", some "ah"⟩ : EncRaw String) 0 _
      rfl).2.2.2.2.2.2.2.2.2 (by decide) ⟨"a", "0x01", "0xp1"⟩ (by decide)).1

/-- C6 counterexample: with two recipients sharing the rid `"a"`,
`Object.fromEntries` keeps only the last entry, so the bundle's
`recipientPrivHexByRid` does not map each recipient rid to its own
private-key hex (the first recipient's key `"0x01"` is unreachable). -/
theorem c6_duplicate_rid_counterexample :
    ¬ (∀ r ∈ recipReady (fun _ => ("x", "y")) [⟨"a", "0x01", "0xp1"⟩, ⟨"a", "0x02", "0xp2"⟩],
      fromEntriesLookup (downloadBundlePayload (fun _ => ("x", "y")) "aad"
        [⟨"a", "0x01", "0xp1"⟩, ⟨"a", "0x02", "0xp2"⟩]
        (⟨"dek", "ct", "n", "h", none⟩ : EncRaw String)
        (encEnvelope ⟨fun pt _ _ => ⟨pt, "ct", "n", "h", none⟩, fun d _ _ _ => d,
          fun _ => .ok (), fun w _ _ => .ok w, fun _ d _ _ _ => .ok d⟩
          ⟨"dek", "ct", "n", "h", none⟩ "aad"
          (recipReady (fun _ => ("x", "y")) [⟨"a", "0x01", "0xp1"⟩, ⟨"a", "0x02", "0xp2"⟩])
          0)).recipientPrivHexByRid r.rid = some r.recipientPrivHex) := by
  decide

/-! ### C7: vector import -/

/-- Looking a key up in an object literal with pairwise-distinct keys gives
that key's (possibly undefined) value. -/
theorem mkObj_get?_nodup (fields : List (String × Option JVal))
    (h : (fields.map Prod.fst).Nodup) (k : String) (o : Option JVal)
    (hmem : (k, o) ∈ fields) : (mkObj fields).get? k = o := by
  simp only [mkObj, JVal.get?]
  induction fields with
  | nil => cases hmem
  | cons a t ih =>
      obtain ⟨k2, o2⟩ := a
      simp only [List.map_cons, List.nodup_cons] at h
      obtain ⟨hk2, ht⟩ := h
      have hsub : ∀ q ∈ (t.filterMap fun p => Option.map (fun v => (p.1, v)) p.2),
          q.1 ∈ t.map Prod.fst := by
        intro q hq
        obtain ⟨p, hp, hpq⟩ := List.mem_filterMap.mp hq
        cases hp2 : p.2 with
        | none => rw [hp2] at hpq; cases hpq
        | some w =>
            rw [hp2] at hpq
            simp only [Option.map_some', Option.some.injEq] at hpq
            rw [← hpq]
            exact List.mem_map_of_mem _ hp
      rcases List.mem_cons.mp hmem with heq | hmemt
      · cases heq
        have hnone : ((t.filterMap fun p => Option.map (fun v => (p.1, v)) p.2).reverse.find?
            fun p => decide (p.1 = k)) = none := by
          rw [List.find?_eq_none]
          intro x hx
          simp only [decide_eq_true_eq]
          intro hx1
          exact hk2 (by rw [← hx1]; exact hsub x (List.mem_reverse.mp hx))
        cases o with
        | none =>
            simp only [List.filterMap_cons, Option.map_none']
            rw [hnone]
            rfl
        | some w =>
            simp only [List.filterMap_cons, Option.map_some']
            rw [List.reverse_cons, List.find?_append, hnone]
            simp
      · have hk : k ∈ t.map Prod.fst := by
          have hfst : (k, o).1 ∈ t.map Prod.fst := List.mem_map_of_mem _ hmemt
          simpa using hfst
        have hkne : ¬ k2 = k := fun hkk => hk2 (hkk ▸ hk)
        have hrest := ih ht hmemt
        cases o2 with
        | none =>
            simp only [List.filterMap_cons, Option.map_none']
            exact hrest
        | some w =>
            simp only [List.filterMap_cons, Option.map_some']
            rw [List.reverse_cons, List.find?_append]
            rcases hfind : ((t.filterMap fun p => Option.map (fun v => (p.1, v)) p.2).reverse.find?
                fun p => decide (p.1 = k)) with _ | q
            · rw [hfind] at hrest
              have hk2k : (decide (k2 = k)) = false := by
                simp only [decide_eq_false_iff_not]
                exact hkne
              simp only [Option.map_none'] at hrest
              rw [hfind, ← hrest]
              simp [List.find?_cons, hk2k]
            · rw [hfind] at hrest
              rw [hfind]
              exact hrest

/-- C7: `vectorToBundle` rejects every value that is not a JSON object and
every object missing one of `raw.ciphertextB64url`, `raw.nonceB64url`,
`envelope`, `wrappedKey`, `recipientPrivHex`; and for a legacy-convention
vector carrying those fields it returns the bundle
`{ aadText, raw, envelope, wrappedKey, recipient: { rid, recipientPubHex,
recipientPrivHex } }` with the vector's fields unchanged. -/
theorem c7_vectorToBundle_spec :
    (∀ (v : JVal), (∀ fs, v ≠ .jobj fs) → ∃ e, vectorToBundle v = .error e) ∧
    (∀ (v : JVal),
      (¬ (jsTruthy (optGet (v.get? "raw") "ciphertextB64url") = true ∧
          jsTruthy (optGet (v.get? "raw") "nonceB64url") = true) ∨
       jsTruthy (v.get? "envelope") = false ∨
       jsTruthy (v.get? "wrappedKey") = false ∨
       jsTruthy (v.get? "recipientPrivHex") = false) →
      ∃ e, vectorToBundle v = .error e) ∧
    (∀ (v : JVal),
      jsTruthy (optGet (v.get? "raw") "ciphertextB64url") = true →
      jsTruthy (optGet (v.get? "raw") "nonceB64url") = true →
      jsTruthy (v.get? "envelope") = true →
      jsTruthy (v.get? "wrappedKey") = true →
      jsTruthy (v.get? "recipientPrivHex") = true →
      ∃ b, vectorToBundle v = .ok b ∧
        b.get? "wrappedKey" = v.get? "wrappedKey" ∧
        b.get? "envelope" = v.get? "envelope" ∧
        optGet (b.get? "raw") "ciphertextB64url" = optGet (v.get? "raw") "ciphertextB64url" ∧
        optGet (b.get? "raw") "nonceB64url" = optGet (v.get? "raw") "nonceB64url" ∧
        optGet (b.get? "raw") "ciphertextHash" = optGet (v.get? "raw") "ciphertextHash" ∧
        (jsTruthy (optGet (v.get? "raw") "aadHash") = true →
          optGet (b.get? "raw") "aadHash" = optGet (v.get? "raw") "aadHash") ∧
        optGet (b.get? "recipient") "rid" = v.get? "rid" ∧
        optGet (b.get? "recipient") "recipientPubHex" = v.get? "recipientPubHex" ∧
        optGet (b.get? "recipient") "recipientPrivHex" = v.get? "recipientPrivHex" ∧
        (∀ s, v.get? "aadText" = some (.jstr s) → b.get? "aadText" = some (.jstr s))) := by
  refine ⟨?_, ?_, ?_⟩
  · intro v h
    cases v with
    | jobj fs => exact absurd rfl (h fs)
    | jnull => exact ⟨_, rfl⟩
    | jbool b =>
        refine ⟨.error "Invalid vector JSON", ?_⟩
        unfold vectorToBundle
        rw [if_pos (by simp [isObjLike])]
    | jnum n =>
        refine ⟨.error "Invalid vector JSON", ?_⟩
        unfold vectorToBundle
        rw [if_pos (by simp [isObjLike])]
    | jstr s =>
        refine ⟨.error "Invalid vector JSON", ?_⟩
        unfold vectorToBundle
        rw [if_pos (by simp [isObjLike])]
    | jarr l =>
        refine ⟨.error "Vector missing raw.ciphertextB64url/nonceB64url", ?_⟩
        unfold vectorToBundle
        rw [if_neg (by simp [isObjLike, JVal.truthy]), if_pos (by
          simp [optGet, JVal.get?, strToNat?, jsTruthy])]
  · intro v hdisj
    unfold vectorToBundle
    by_cases hA : (JVal.truthy v) = true ∧ isObjLike (some v) = true
    · rw [if_neg (not_not_intro hA)]
      by_cases hB : jsTruthy (optGet (v.get? "raw") "ciphertextB64url") = true ∧
          jsTruthy (optGet (v.get? "raw") "nonceB64url") = true
      · rw [if_neg (not_not_intro hB)]
        by_cases hC : jsTruthy (v.get? "envelope") = true
        · rw [if_neg (not_not_intro hC)]
          by_cases hD : jsTruthy (v.get? "wrappedKey") = true
          · rw [if_neg (not_not_intro hD)]
            by_cases hE : jsTruthy (v.get? "recipientPrivHex") = true
            · exfalso
              rcases hdisj with h | h | h | h
              · exact h hB
              · rw [h] at hC; exact Bool.noConfusion hC
              · rw [h] at hD; exact Bool.noConfusion hD
              · rw [h] at hE; exact Bool.noConfusion hE
            · rw [if_pos hE]; exact ⟨_, rfl⟩
          · rw [if_pos hD]; exact ⟨_, rfl⟩
        · rw [if_pos hC]; exact ⟨_, rfl⟩
      · rw [if_pos hB]; exact ⟨_, rfl⟩
    · rw [if_pos hA]; exact ⟨_, rfl⟩
  · intro v h1 h2 h3 h4 h5
    have hobj : (JVal.truthy v) = true ∧ isObjLike (some v) = true := by
      cases v with
      | jobj fs => exact ⟨rfl, rfl⟩
      | jnull => exact Bool.noConfusion h3
      | jbool b => exact Bool.noConfusion h3
      | jnum n => exact Bool.noConfusion h3
      | jstr s => exact Bool.noConfusion h3
      | jarr l => exact Bool.noConfusion h3
    unfold vectorToBundle
    rw [if_neg (not_not_intro hobj), if_neg (fun hc => hc ⟨h1, h2⟩),
      if_neg (fun hc => hc h3), if_neg (fun hc => hc h4), if_neg (fun hc => hc h5)]
    have hraw : (vectorBundle v).get? "raw" = some (vectorBundleRaw v) := by
      unfold vectorBundle
      exact mkObj_get?_nodup _ (by simp) _ _ (by simp)
    have hrec : (vectorBundle v).get? "recipient" = some (vectorBundleRecipient v) := by
      unfold vectorBundle
      exact mkObj_get?_nodup _ (by simp) _ _ (by simp)
    refine ⟨vectorBundle v, rfl, ?_, ?_, ?_, ?_, ?_, ?_, ?_, ?_, ?_, ?_⟩
    · unfold vectorBundle
      exact mkObj_get?_nodup _ (by simp) _ _ (by simp)
    · unfold vectorBundle
      exact mkObj_get?_nodup _ (by simp) _ _ (by simp)
    · rw [hraw]
      show (vectorBundleRaw v).get? "ciphertextB64url" = _
      unfold vectorBundleRaw
      exact mkObj_get?_nodup _ (by simp) _ _ (by simp)
    · rw [hraw]
      show (vectorBundleRaw v).get? "nonceB64url" = _
      unfold vectorBundleRaw
      exact mkObj_get?_nodup _ (by simp) _ _ (by simp)
    · rw [hraw]
      show (vectorBundleRaw v).get? "ciphertextHash" = _
      unfold vectorBundleRaw
      exact mkObj_get?_nodup _ (by simp) _ _ (by simp)
    · intro hah
      have h6 : (vectorBundleRaw v).get? "aadHash" =
          (if jsTruthy (optGet (v.get? "raw") "aadHash") then
            optGet (v.get? "raw") "aadHash" else none) := by
        unfold vectorBundleRaw
        exact mkObj_get?_nodup _ (by simp) _ _ (by simp)
      rw [hraw]
      show (vectorBundleRaw v).get? "aadHash" = _
      rw [h6, if_pos hah]
    · rw [hrec]
      show (vectorBundleRecipient v).get? "rid" = _
      unfold vectorBundleRecipient
      exact mkObj_get?_nodup _ (by simp) _ _ (by simp)
    · rw [hrec]
      show (vectorBundleRecipient v).get? "recipientPubHex" = _
      unfold vectorBundleRecipient
      exact mkObj_get?_nodup _ (by simp) _ _ (by simp)
    · rw [hrec]
      show (vectorBundleRecipient v).get? "recipientPrivHex" = _
      unfold vectorBundleRecipient
      exact mkObj_get?_nodup _ (by simp) _ _ (by simp)
    · intro s hs
      have h7 : (vectorBundle v).get? "aadText" = some (vectorBundleAadText v) := by
        unfold vectorBundle
        exact mkObj_get?_nodup _ (by simp) _ _ (by simp)
      rw [h7]
      unfold vectorBundleAadText
      rw [hs]

/-- Witness for `c7_vectorToBundle_spec` at concrete vectors. -/
theorem c7_vectorToBundle_spec_witness :
    (∃ e, vectorToBundle (.jstr "nope") = .error e) ∧
    (∃ e, vectorToBundle (.jobj [("envelope", .jobj [])]) = .error e) ∧
    (∃ b, vectorToBundle (.jobj
      [("raw", .jobj [("ciphertextB64url", .jstr "c"), ("nonceB64url", .jstr "n")]),
       ("envelope", .jobj []), ("wrappedKey", .jstr "wk"),
       ("recipientPrivHex", .jstr "p"), ("rid", .jstr "r"), ("aadText", .jstr "aad")]) =
        .ok b ∧
      b.get? "wrappedKey" = some (.jstr "wk")) := by
  refine ⟨c7_vectorToBundle_spec.1 (.jstr "nope") (fun _ h => JVal.noConfusion h),
    c7_vectorToBundle_spec.2.1 (.jobj [("envelope", .jobj [])]) (.inl (by decide)), ?_⟩
  obtain ⟨b, hb, hwk, _⟩ := c7_vectorToBundle_spec.2.2 (.jobj
      [("raw", .jobj [("ciphertextB64url", .jstr "c"), ("nonceB64url", .jstr "n")]),
       ("envelope", .jobj []), ("wrappedKey", .jstr "wk"),
       ("recipientPrivHex", .jstr "p"), ("rid", .jstr "r"), ("aadText", .jstr "aad")])
    rfl rfl rfl rfl rfl
  exact ⟨b, hb, hwk.trans rfl⟩

/-! ### C5: run identifiers and stale-result discard -/

/-- A completion event never changes the identifier history. -/
theorem runIdStep_complete_started (s : RunIdSt) (id : Nat) (r : Except JsErr DecSuccess) :
    (runIdStep s (.complete id r)).started = s.started := by
  simp only [runIdStep]
  split <;> rfl

/-- A completion event never changes the counter. -/
theorem runIdStep_complete_counter (s : RunIdSt) (id : Nat) (r : Except JsErr DecSuccess) :
    (runIdStep s (.complete id r)).counter = s.counter := by
  simp only [runIdStep]
  split <;> rfl

/-- Invariant of the staleness protocol: every identifier handed out is at
most the counter, and the handed-out identifiers strictly increase. -/
theorem runIdStep_invariant (evs : List RunEv) (s : RunIdSt)
    (hle : ∀ i ∈ s.started, i ≤ s.counter) (hch : s.started.Chain' (· < ·)) :
    (∀ i ∈ (evs.foldl runIdStep s).started, i ≤ (evs.foldl runIdStep s).counter) ∧
    (evs.foldl runIdStep s).started.Chain' (· < ·) := by
  induction evs generalizing s with
  | nil => exact ⟨hle, hch⟩
  | cons e t ih =>
      simp only [List.foldl_cons]
      cases e with
      | start =>
          refine ih _ ?_ ?_
          · intro i hi
            simp only [runIdStep, List.mem_append, List.mem_singleton] at hi
            simp only [runIdStep]
            rcases hi with hi | hi
            · exact Nat.le_succ_of_le (hle i hi)
            · omega
          · simp only [runIdStep]
            rw [List.chain'_append]
            refine ⟨hch, List.chain'_singleton _, ?_⟩
            intro x hx y hy
            simp only [List.head?_cons, Option.mem_def, Option.some.injEq] at hy
            subst hy
            exact Nat.lt_succ_of_le (hle x (List.mem_of_mem_getLast? hx))
      | complete id r =>
          refine ih _ ?_ ?_
          · intro i hi
            rw [runIdStep_complete_started] at hi
            rw [runIdStep_complete_counter]
            exact hle i hi
          · rw [runIdStep_complete_started]
            exact hch

/-- C5: every Decrypt-tab invocation takes `++runIdRef.current` as its run
identifier, so from the initial component state the identifiers handed out
strictly increase across invocations; and a completion whose identifier no
longer equals the current counter leaves the component state — in
particular both the success result and the error message — untouched. -/
theorem c5_runid_monotone_and_stale_discard :
    (∀ evs : List RunEv,
      (evs.foldl runIdStep ⟨0, decOut0, []⟩).started.Chain' (· < ·)) ∧
    (∀ (s : RunIdSt) (id : Nat) (r : Except JsErr DecSuccess), id ≠ s.counter →
      runIdStep s (.complete id r) = s) := by
  constructor
  · intro evs
    exact (runIdStep_invariant evs ⟨0, decOut0, []⟩ (by simp) (by simp)).2
  · intro s id r h
    simp [runIdStep, h]

/-- Witness for `c5_runid_monotone_and_stale_discard`: a stale completion
at a concrete state changes nothing. -/
theorem c5_runid_monotone_and_stale_discard_witness :
    runIdStep ⟨5, decOut0, [4, 5]⟩ (.complete 3 (.error (.error "late"))) =
      ⟨5, decOut0, [4, 5]⟩ :=
  c5_runid_monotone_and_stale_discard.2 ⟨5, decOut0, [4, 5]⟩ 3 (.error (.error "late"))
    (by decide)

/-! ### C10: silent fallback to the first recipient -/

/-- The find loop returns no match when no element's rid matches (and no
element is null). -/
theorem findRecipEntry_none (ridToUse : Option JVal) (l : List JVal)
    (hnn : ∀ x ∈ l, x ≠ .jnull)
    (hnm : ∀ x ∈ l, jsStrictEq (x.get? "rid") ridToUse = false) :
    findRecipEntry ridToUse l = .ok none := by
  induction l with
  | nil => rfl
  | cons x t ih =>
      have hx := hnm x (by simp)
      have hxn := hnn x (by simp)
      have iht := ih (fun y hy => hnn y (by simp [hy])) (fun y hy => hnm y (by simp [hy]))
      cases x with
      | jnull => exact absurd rfl hxn
      | jbool b =>
          simp only [findRecipEntry, hx, Bool.false_eq_true, if_false]
          exact iht
      | jnum n =>
          simp only [findRecipEntry, hx, Bool.false_eq_true, if_false]
          exact iht
      | jstr s =>
          simp only [findRecipEntry, hx, Bool.false_eq_true, if_false]
          exact iht
      | jarr l2 =>
          simp only [findRecipEntry, hx, Bool.false_eq_true, if_false]
          exact iht
      | jobj fs =>
          simp only [findRecipEntry, hx, Bool.false_eq_true, if_false]
          exact iht

/-- C10: in both the Decrypt-tab run and the WK1-tab prefill, a selected
rid that matches no recipient entry silently falls back to the first entry
`recips[0]` — the Decrypt run's unwrap call receives `recips[0].wrappedKey`
and the WK1 prefill stores it — and in that resolution an error arises only
when the recipient list is unusable (missing, not an array, or empty,
rejected as `envelope.access.recipients missing/empty`) or the chosen entry
lacks a `wrappedKey` (rejected as `No wrappedKey for selected recipient`);
no 'recipient not found' error exists. -/
theorem c10_first_recipient_fallback :
    (∀ (bundle : JVal) (aadOverride selectedRid : String) (sdk : Sdk)
        (recips : List JVal) (e0 : JVal),
      jsTruthy (optGet (bundle.get? "raw") "ciphertextB64url") = true →
      jsTruthy (optGet (bundle.get? "raw") "nonceB64url") = true →
      jsTruthy (bundle.get? "envelope") = true →
      sdk.validateEnvelope ((bundle.get? "envelope").getD .jnull) = .ok () →
      optGet (optGet (bundle.get? "envelope") "access") "recipients" = some (.jarr recips) →
      recips.head? = some e0 →
      (∀ x ∈ recips, x ≠ .jnull) →
      selectedRid ≠ "" →
      (∀ x ∈ recips, jsStrictEq (x.get? "rid") (some (.jstr selectedRid)) = false) →
      jsTruthy (e0.get? "wrappedKey") = true →
      jsTruthy (decryptPrivHex bundle e0) = true →
      ∃ tr, (decryptRunCore (.ok bundle) aadOverride selectedRid sdk).2 =
        SdkCall.validateEnvelope ((bundle.get? "envelope").getD .jnull) ::
        SdkCall.unwrapDEK ((e0.get? "wrappedKey").getD .jnull)
          ((decryptPrivHex bundle e0).getD .jnull)
          (aadOrUndef (decryptAadText bundle aadOverride)) :: tr) ∧
    (∀ (bundle : JVal) (aadOverride selectedRid : String) (sdk : Sdk),
      jsTruthy (optGet (bundle.get? "raw") "ciphertextB64url") = true →
      jsTruthy (optGet (bundle.get? "raw") "nonceB64url") = true →
      jsTruthy (bundle.get? "envelope") = true →
      sdk.validateEnvelope ((bundle.get? "envelope").getD .jnull) = .ok () →
      recipientsUnusable bundle = true →
      (decryptRunCore (.ok bundle) aadOverride selectedRid sdk).1 =
        .error (.error "envelope.access.recipients missing/empty")) ∧
    (∀ (bundle : JVal) (aadOverride selectedRid : String) (sdk : Sdk)
        (recips : List JVal) (e0 : JVal),
      jsTruthy (optGet (bundle.get? "raw") "ciphertextB64url") = true →
      jsTruthy (optGet (bundle.get? "raw") "nonceB64url") = true →
      jsTruthy (bundle.get? "envelope") = true →
      sdk.validateEnvelope ((bundle.get? "envelope").getD .jnull) = .ok () →
      optGet (optGet (bundle.get? "envelope") "access") "recipients" = some (.jarr recips) →
      recips.head? = some e0 →
      (∀ x ∈ recips, x ≠ .jnull) →
      selectedRid ≠ "" →
      (∀ x ∈ recips, jsStrictEq (x.get? "rid") (some (.jstr selectedRid)) = false) →
      jsTruthy (e0.get? "wrappedKey") = false →
      (decryptRunCore (.ok bundle) aadOverride selectedRid sdk).1 =
        .error (.error "No wrappedKey for selected recipient")) ∧
    (∀ (st : WkSt) (bundle : JVal) (selectedRid : String)
        (jp : List Nat → Except String JVal) (recips : List JVal) (e0 : JVal),
      optGet (optGet (bundle.get? "envelope") "access") "recipients" = some (.jarr recips) →
      recips.head? = some e0 →
      (∀ x ∈ recips, x ≠ .jnull) →
      selectedRid ≠ "" →
      (∀ x ∈ recips, jsStrictEq (x.get? "rid") (some (.jstr selectedRid)) = false) →
      jsTruthy (e0.get? "wrappedKey") = true →
      (fillFromBundle st (.ok bundle) selectedRid jp).wrappedKey =
        (e0.get? "wrappedKey").getD .jnull) := by
  have hto : strToNat? "envelope" = none := rfl
  refine ⟨?_, ?_, ?_, ?_⟩
  · intro bundle a r sdk recips e0 h1 h2 h3 hVal hrec hhead hnn hsel hnm hw hpv
    obtain ⟨t, rfl⟩ : ∃ t, recips = e0 :: t := by
      cases recips with
      | nil => cases hhead
      | cons x t => exact ⟨t, by rw [show x = e0 from Option.some.inj hhead]⟩
    cases bundle with
    | jobj fs =>
        have hrt : jsTruthy (some (JVal.jstr r)) = true := by
          simp [jsTruthy, JVal.truthy, hsel]
        simp only [decryptRunCore]
        rw [if_neg (fun hC => hC ⟨h1, h2⟩), if_neg (fun hC => hC h3)]
        simp only [hVal, hrec, jsOr, jsTruthy, JVal.truthy, Option.getD_some,
          List.isEmpty_cons, Bool.false_eq_true, if_false, eq_self_iff_true, if_true]
        rw [if_pos hsel]
        rw [if_neg (fun hC => hC hrt)]
        rw [findRecipEntry_none _ _ hnn hnm]
        simp only [Option.getD_none, List.headD_cons]
        rw [if_neg (fun hC => hC hw), if_neg (fun hC => hC hpv)]
        cases hu : sdk.unwrapDEK ((e0.get? "wrappedKey").getD .jnull)
            ((decryptPrivHex (.jobj fs) e0).getD .jnull)
            (aadOrUndef (decryptAadText (.jobj fs) a)) with
        | error e => exact ⟨[], rfl⟩
        | ok dek =>
            simp only []
            cases hd : sdk.decryptText ((JVal.get? (.jobj fs) "envelope").getD .jnull) dek
                ((optGet (JVal.get? (.jobj fs) "raw") "ciphertextB64url").getD .jnull)
                ((optGet (JVal.get? (.jobj fs) "raw") "nonceB64url").getD .jnull)
                (aadOrUndef (decryptAadText (.jobj fs) a)) with
            | error e => exact ⟨_, rfl⟩
            | ok pt => exact ⟨_, rfl⟩
    | jnull => simp [JVal.get?, jsTruthy] at h3
    | jbool b => simp [JVal.get?, jsTruthy] at h3
    | jnum n => simp [JVal.get?, jsTruthy] at h3
    | jstr s => simp [JVal.get?, jsTruthy] at h3
    | jarr l => simp [JVal.get?, jsTruthy, hto] at h3
  · intro bundle a r sdk h1 h2 h3 hVal h4
    cases bundle with
    | jobj fs =>
        unfold recipientsUnusable at h4
        simp only [decryptRunCore]
        rw [if_neg (fun hC => hC ⟨h1, h2⟩), if_neg (fun hC => hC h3)]
        simp only [hVal]
        cases hS : (jsOr (optGet (optGet (JVal.get? (.jobj fs) "envelope") "access")
            "recipients") (some (.jarr []))).getD (.jarr []) with
        | jarr recips =>
            rw [hS] at h4
            replace h4 : recips.isEmpty = true := h4
            simp only [h4, if_true]
        | jnull => rfl
        | jbool b => rfl
        | jnum n => rfl
        | jstr s => rfl
        | jobj fs2 => rfl
    | jnull => simp [JVal.get?, jsTruthy] at h3
    | jbool b => simp [JVal.get?, jsTruthy] at h3
    | jnum n => simp [JVal.get?, jsTruthy] at h3
    | jstr s => simp [JVal.get?, jsTruthy] at h3
    | jarr l => simp [JVal.get?, jsTruthy, hto] at h3
  · intro bundle a r sdk recips e0 h1 h2 h3 hVal hrec hhead hnn hsel hnm hw
    obtain ⟨t, rfl⟩ : ∃ t, recips = e0 :: t := by
      cases recips with
      | nil => cases hhead
      | cons x t => exact ⟨t, by rw [show x = e0 from Option.some.inj hhead]⟩
    cases bundle with
    | jobj fs =>
        have hrt : jsTruthy (some (JVal.jstr r)) = true := by
          simp [jsTruthy, JVal.truthy, hsel]
        simp only [decryptRunCore]
        rw [if_neg (fun hC => hC ⟨h1, h2⟩), if_neg (fun hC => hC h3)]
        simp only [hVal, hrec, jsOr, jsTruthy, JVal.truthy, Option.getD_some,
          List.isEmpty_cons, Bool.false_eq_true, if_false, eq_self_iff_true, if_true]
        rw [if_pos hsel]
        rw [if_neg (fun hC => hC hrt)]
        rw [findRecipEntry_none _ _ hnn hnm]
        simp only [Option.getD_none, List.headD_cons]
        simp only [jsTruthy, JVal.truthy] at hw
        rw [if_pos (fun hC => Bool.false_ne_true (hw.symm.trans hC))]
    | jnull => simp [JVal.get?, jsTruthy] at h3
    | jbool b => simp [JVal.get?, jsTruthy] at h3
    | jnum n => simp [JVal.get?, jsTruthy] at h3
    | jstr s => simp [JVal.get?, jsTruthy] at h3
    | jarr l => simp [JVal.get?, jsTruthy, hto] at h3
  · intro st bundle r jp recips e0 hrec hhead hnn hsel hnm hw
    obtain ⟨t, rfl⟩ : ∃ t, recips = e0 :: t := by
      cases recips with
      | nil => cases hhead
      | cons x t => exact ⟨t, by rw [show x = e0 from Option.some.inj hhead]⟩
    simp only [fillFromBundle]
    simp only [hrec, jsOr, jsTruthy, JVal.truthy, Option.getD_some, List.isEmpty_cons,
      Bool.false_eq_true, if_false, eq_self_iff_true, if_true]
    rw [if_pos hsel]
    rw [findRecipEntry_none _ _ hnn hnm]
    simp only [Option.getD_none, List.headD_cons]
    simp only [jsTruthy, JVal.truthy] at hw
    rw [if_pos hw]
    repeat' split
    all_goals rfl

/-- Witness for `c10_first_recipient_fallback` at a concrete bundle whose
selected rid `"zz"` matches no entry. -/
theorem c10_first_recipient_fallback_witness :
    (∃ tr, (decryptRunCore (.ok (.jobj
        [("raw", .jobj [("ciphertextB64url", .jstr "c"), ("nonceB64url", .jstr "n")]),
         ("envelope", .jobj [("access", .jobj [("recipients", .jarr
            [.jobj [("rid", .jstr "r1"), ("wrappedKey", .jstr "wk1")],
             .jobj [("rid", .jstr "r2"), ("wrappedKey", .jstr "wk2")]])])]),
         ("recipientPrivHexByRid", .jobj [("r1", .jstr "p1")])])) "ov" "zz"
        ⟨fun _ => .ok (), fun _ _ _ => .error (.error "u"),
         fun _ _ _ _ _ => .error (.error "d")⟩).2 =
      SdkCall.validateEnvelope ((JVal.jobj
        [("raw", .jobj [("ciphertextB64url", .jstr "c"), ("nonceB64url", .jstr "n")]),
         ("envelope", .jobj [("access", .jobj [("recipients", .jarr
            [.jobj [("rid", .jstr "r1"), ("wrappedKey", .jstr "wk1")],
             .jobj [("rid", .jstr "r2"), ("wrappedKey", .jstr "wk2")]])])]),
         ("recipientPrivHexByRid", .jobj [("r1", .jstr "p1")])]).get? "envelope" |>.getD
           .jnull) ::
        SdkCall.unwrapDEK ((JVal.jobj [("rid", .jstr "r1"),
            ("wrappedKey", .jstr "wk1")]).get? "wrappedKey" |>.getD .jnull)
          ((decryptPrivHex (.jobj
            [("raw", .jobj [("ciphertextB64url", .jstr "c"), ("nonceB64url", .jstr "n")]),
             ("envelope", .jobj [("access", .jobj [("recipients", .jarr
                [.jobj [("rid", .jstr "r1"), ("wrappedKey", .jstr "wk1")],
                 .jobj [("rid", .jstr "r2"), ("wrappedKey", .jstr "wk2")]])])]),
             ("recipientPrivHexByRid", .jobj [("r1", .jstr "p1")])])
            (.jobj [("rid", .jstr "r1"), ("wrappedKey", .jstr "wk1")])).getD .jnull)
          (aadOrUndef (decryptAadText (.jobj
            [("raw", .jobj [("ciphertextB64url", .jstr "c"), ("nonceB64url", .jstr "n")]),
             ("envelope", .jobj [("access", .jobj [("recipients", .jarr
                [.jobj [("rid", .jstr "r1"), ("wrappedKey", .jstr "wk1")],
                 .jobj [("rid", .jstr "r2"), ("wrappedKey", .jstr "wk2")]])])]),
             ("recipientPrivHexByRid", .jobj [("r1", .jstr "p1")])]) "ov")) :: tr) ∧
    (fillFromBundle ⟨.jstr "", .jstr "", .jstr "", "", .jstr "", .jstr "", none⟩
        (.ok (.jobj
          [("envelope", .jobj [("access", .jobj [("recipients", .jarr
             [.jobj [("rid", .jstr "r1"), ("wrappedKey", .jstr "wk1")],
              .jobj [("rid", .jstr "r2"), ("wrappedKey", .jstr "wk2")]])])])]))
        "zz" (fun _ => .error "np")).wrappedKey =
      ((JVal.jobj [("rid", .jstr "r1"), ("wrappedKey", .jstr "wk1")]).get?
        "wrappedKey").getD .jnull :=
  ⟨c10_first_recipient_fallback.1 _ "ov" "zz" _ _ _ rfl rfl rfl rfl rfl rfl
      (by simp) (by decide) (by decide) rfl rfl,
   c10_first_recipient_fallback.2.2.2 _ _ "zz" _ _ _ rfl rfl (by simp) (by decide)
      (by decide) rfl⟩

end Pxp201
